import Mathlib

/-!
# Achievement reconciliation engine

A shallow embedding of `server/src/api/services/internal/achievement.service.ts`:
the catalog builder (`formatThreshold`, `formatType`, `getDefinitions`), the snapshot
diff engine (`getNewAchievements`, `getPreviousAchievements`), the date backfill scanner
(`addPastDates`), the reconciler (`syncAchievements`, `reevaluateAchievements`) and the
query accessor (`getPlayerAchievements`).

Conventions of the embedding.

* Numbers. Metric values are integers (`-1` is the untracked sentinel), template thresholds
  and difficulty factors are taken to be natural numbers (counts and experience points, on
  which JavaScript double arithmetic is exact below `2^53`). The one place where the source
  computes with fractions (`formatThreshold`, the "m" and "b" branches) is modelled with
  exact binary64 rounding, see `roundDouble`.
* Dates are milliseconds since the epoch (`Date.getTime()`), `0` is the unknown-date
  sentinel `new Date(0)`. The clock reading `new Date()` is the parameter `now`.
* The constants and helpers the module imports (`SKILLS`, the template lists,
  `CAPPED_MAX_TOTAL_XP`, `getDifficultyFactor`, `getFormattedName`, `getMeasure`,
  `getValueKey`) are fields of `Config`.
* The snapshot history and the achievement table are explicit state (`Database`, `Store`);
  a storage failure inside the transaction of `reevaluateAchievements` is an explicit
  parameter (`StorageFault`).
-/

namespace Achievements

/-! ## Data model -/

/-- A JavaScript number in the `threshold` position: a natural number, or `NaN`
(what `undefined * factor` evaluates to when a template has no threshold). -/
inductive JSNumber where
  | nan : JSNumber
  | val (n : Nat) : JSNumber
deriving DecidableEq, Repr

/-- One snapshot row: its timestamp and its metric columns, read by column name
(`snapshot[getValueKey(metric)]`). -/
structure Snapshot where
  createdAt : Int
  values : String → Int

/-- An achievement template as found in `SKILL_ACHIEVEMENT_TEMPLATES` and its siblings.
`metric` is `none` when the property is absent; `validate` is only read for templates
with a fixed metric and a single threshold. -/
structure Template where
  type : String
  metric : Option String
  thresholds : List Nat
  validate : Snapshot → Bool

/-- Everything `achievement.service.ts` imports from `constants`, `util/experience`
and `util/metrics`. -/
structure Config where
  SKILLS : List String
  ACTIVITIES : List String
  BOSSES : List String
  SKILL_ACHIEVEMENT_TEMPLATES : List Template
  ACTIVITY_ACHIEVEMENT_TEMPLATES : List Template
  BOSS_ACHIEVEMENT_TEMPLATES : List Template
  CAPPED_MAX_TOTAL_XP : Nat
  getDifficultyFactor : String → Nat
  getFormattedName : String → String
  getMeasure : String → String
  getValueKey : String → String

/-- A hydrated template: one entry of the catalog. -/
structure Definition where
  type : String
  metric : String
  threshold : JSNumber
  validate : Snapshot → Bool

/-! ## Binary64 arithmetic used by `formatThreshold`

Non-negative finite doubles are represented exactly as fractions `num / den`. Every
arithmetic operation computes the exact result and rounds it to the nearest double, ties
to even. Only the normal range is modelled (no subnormals, no overflow), which covers every
threshold below `2^53`. -/

/-- A non-negative rational `num / den` (with `den > 0`). -/
structure Frac where
  num : Nat
  den : Nat
deriving DecidableEq, Repr

/-- Floor of the binary logarithm, by repeated halving. -/
def ilog2 : Nat → Nat → Nat
  | 0, _ => 0
  | fuel + 1, n => if 2 ≤ n then ilog2 fuel (n / 2) + 1 else 0

/-- Round `n / d` to the nearest integer, ties to the even neighbour. -/
def roundHalfEven (n d : Nat) : Nat :=
  let q := n / d
  let r := n % d
  if 2 * r < d then q
  else if d < 2 * r then q + 1
  else if q % 2 = 0 then q else q + 1

/-- Round a non-negative rational to the nearest binary64 value (53-bit significand,
round-to-nearest, ties-to-even). With `2^e ≤ x < 2^(e+1)` the result is
`roundHalfEven (x / 2^(e-52)) * 2^(e-52)`. -/
def roundDouble (x : Frac) : Frac :=
  if x.num = 0 then ⟨0, 1⟩
  else if x.den ≤ x.num then
    let e := ilog2 (x.num / x.den) (x.num / x.den)
    if e ≤ 52 then ⟨roundHalfEven (x.num * 2 ^ (52 - e)) x.den, 2 ^ (52 - e)⟩
    else ⟨roundHalfEven x.num (x.den * 2 ^ (e - 52)) * 2 ^ (e - 52), 1⟩
  else
    let c := (x.den + x.num - 1) / x.num
    let k := ilog2 (c - 1) (c - 1) + 1
    ⟨roundHalfEven (x.num * 2 ^ (52 + k)) x.den, 2 ^ (52 + k)⟩

/-- Double division `a / b`. -/
def fdiv (a b : Frac) : Frac := roundDouble ⟨a.num * b.den, a.den * b.num⟩

/-- Double addition `a + b`. -/
def fadd (a b : Frac) : Frac := roundDouble ⟨a.num * b.den + b.num * a.den, a.den * b.den⟩

/-- Double multiplication `a * b`. -/
def fmul (a b : Frac) : Frac := roundDouble ⟨a.num * b.num, a.den * b.den⟩

/-- The integer `n` as a double (exact below `2^53`). -/
def ofNat (n : Nat) : Frac := ⟨n, 1⟩

/-- The constant `Number.EPSILON`, `2^-52`. -/
def EPSILON : Frac := ⟨1, 2 ^ 52⟩

/-- The function `Math.round` on a non-negative double: `floor (x + 1/2)`, computed exactly. -/
def mathRound (x : Frac) : Nat := (2 * x.num + x.den) / (2 * x.den)

/-- The text of the double `k / 100`, as the template literal prints it. The double nearest
to `k / 100` prints as the shortest decimal that reads back to it, which is `k / 100`
written with at most two decimals and no trailing zero. -/
def showHundredths (k : Nat) : String :=
  if k % 100 = 0 then toString (k / 100)
  else if k % 10 = 0 then toString (k / 100) ++ "." ++ toString (k % 100 / 10)
  else toString (k / 100) ++ "." ++ toString (k % 100 / 10) ++ toString (k % 10)

/-- The expression `Math.round((threshold / unit + Number.EPSILON) * 100) / 100`, printed. -/
def roundToHundredths (threshold unit : Nat) : String :=
  showHundredths (mathRound (fmul (fadd (fdiv (ofNat threshold) (ofNat unit)) EPSILON) (ofNat 100)))

/-! ## Catalog builder -/

/-- Source: `formatThreshold`. `Math.floor(threshold / 1000)` is the integer quotient: double
division is monotone and integers are doubles, so rounding cannot cross an integer (checked
against the binary64 model in `mathFloor_fdiv_thousand`). -/
def formatThreshold (cfg : Config) (threshold : Nat) : String :=
  if threshold = 13034431 then "99"
  else if threshold = cfg.CAPPED_MAX_TOTAL_XP then "2277"
  else if threshold < 1000 ∨ threshold = 2277 then toString threshold
  else if threshold ≤ 10000 then toString (threshold / 1000) ++ "k"
  else if threshold < 1000000000 then roundToHundredths threshold 1000000 ++ "m"
  else roundToHundredths threshold 1000000000 ++ "b"

/-- Whether `pat` starts the character list `s`. -/
def startsWith (pat : List Char) (s : List Char) : Bool :=
  match pat, s with
  | [], _ => true
  | _ :: _, [] => false
  | p :: ps, c :: cs => p == c && startsWith ps cs

/-- Replace the first occurrence of `pat` in `s` by `rep`, on character lists. -/
def replaceFirstChars (pat rep : List Char) : List Char → List Char
  | [] => if pat.isEmpty then rep else []
  | c :: cs =>
    if startsWith pat (c :: cs) then rep ++ (c :: cs).drop pat.length
    else c :: replaceFirstChars pat rep cs

/-- The method `String.prototype.replace` with a string pattern: only the first occurrence
is replaced. The replacement text is inserted literally (formatted thresholds and metric
names contain no `$`). -/
def replaceFirst (s pat rep : String) : String :=
  String.mk (replaceFirstChars pat.data rep.data s.data)

/-- Source: `formatType`. -/
def formatType (cfg : Config) (baseType : String) (threshold : Nat) (metric : String) : String :=
  replaceFirst
    (replaceFirst
      (replaceFirst
        (replaceFirst baseType "{threshold}" (formatThreshold cfg threshold))
        "{skill}" (cfg.getFormattedName metric))
      "{activity}" (cfg.getFormattedName metric))
    "{boss}" (cfg.getFormattedName metric)

/-- The definition pushed by the two dynamic branches of `getDefinitions`: formatted type,
and the predicate `snapshot[getValueKey(metric)] >= threshold`. -/
def hydrate (cfg : Config) (type : String) (metric : String) (threshold : Nat) : Definition :=
  { type := formatType cfg type threshold metric
    metric := metric
    threshold := JSNumber.val threshold
    validate := fun snapshot => decide (snapshot.values (cfg.getValueKey metric) ≥ (threshold : Int)) }

/-- The test `!metric`: the property is absent or the empty string. -/
def metricUnset (metric : Option String) : Bool :=
  match metric with
  | none => true
  | some m => m == ""

/-- The expression `thresholds[0] * getDifficultyFactor(metric)`; `undefined * factor` is
`NaN` when the list is empty. -/
def firstThreshold (thresholds : List Nat) (factor : Nat) : JSNumber :=
  match thresholds with
  | [] => JSNumber.nan
  | t :: _ => JSNumber.val (t * factor)

/-- The body of one `forEach(template => ...)` callback of `getDefinitions`; the three
callbacks differ only in the metric family they iterate (`family`). -/
def expandTemplate (cfg : Config) (family : List String) (template : Template) :
    List Definition :=
  if metricUnset template.metric then
    family.flatMap fun m =>
      (template.thresholds.map fun t => t * cfg.getDifficultyFactor m).map
        (hydrate cfg template.type m)
  else
    let metric := template.metric.getD ""
    if 1 < template.thresholds.length then
      (template.thresholds.map fun t => t * cfg.getDifficultyFactor metric).map
        (hydrate cfg template.type metric)
    else
      [{ type := template.type
         metric := metric
         threshold := firstThreshold template.thresholds (cfg.getDifficultyFactor metric)
         validate := template.validate }]

/-- The skills iterated by skill templates: `SKILLS.filter(s => s !== 'overall')`. -/
def trackableSkills (cfg : Config) : List String :=
  cfg.SKILLS.filter fun s => s != "overall"

/-- Source: `getDefinitions`. -/
def getDefinitions (cfg : Config) : List Definition :=
  cfg.SKILL_ACHIEVEMENT_TEMPLATES.flatMap (expandTemplate cfg (trackableSkills cfg))
    ++ cfg.ACTIVITY_ACHIEVEMENT_TEMPLATES.flatMap (expandTemplate cfg cfg.ACTIVITIES)
    ++ cfg.BOSS_ACHIEVEMENT_TEMPLATES.flatMap (expandTemplate cfg cfg.BOSSES)

/-! ## Snapshot diff engine -/

/-- What `getNewAchievements` and `getPreviousAchievements` return: `{ ...def, createdAt }`. -/
structure DatedDefinition extends Definition where
  createdAt : Int

/-- Source: `getNewAchievements`. A missing (`null`) snapshot is `none`; `now` is the value
of `new Date()`. -/
def getNewAchievements (cfg : Config) (now : Int) (current previous : Option Snapshot) :
    List DatedDefinition :=
  match current, previous with
  | some current, some previous =>
    ((getDefinitions cfg).filter fun d => !d.validate previous && d.validate current).map
      fun d =>
        { toDefinition := d
          createdAt := if previous.values (cfg.getValueKey d.metric) = -1 then 0 else now }
  | _, _ => []

/-- Source: `getPreviousAchievements`. -/
def getPreviousAchievements (cfg : Config) (previousSnapshot : Option Snapshot) :
    List DatedDefinition :=
  match previousSnapshot with
  | some previousSnapshot =>
    ((getDefinitions cfg).filter fun d => d.validate previousSnapshot).map
      fun d => { toDefinition := d, createdAt := 0 }
  | none => []

/-! ## Persistence -/

/-- A row of the achievement table, and the shape of the objects handed to `bulkCreate`
(`{ ...a, playerId }`; the `validate` property is not a column and is not stored). -/
structure Achievement where
  playerId : Nat
  type : String
  metric : String
  threshold : JSNumber
  createdAt : Int
deriving DecidableEq, Repr

/-- The callback `a => ({ ...a, playerId })`, keeping the columns of the table. -/
def withPlayer (playerId : Nat) (a : DatedDefinition) : Achievement :=
  { playerId := playerId, type := a.type, metric := a.metric, threshold := a.threshold
    createdAt := a.createdAt }

/-- Modelled from the spec: the snapshot history provider behind `snapshotService.findAll`
(`snapshot.service.ts` is not part of the sources). Per player it holds the recorded
snapshots in the order the provider returns them, which at the call sites of this module is
newest first (`syncAchievements` reads `snapshots[0]` as the current snapshot). -/
structure Database where
  snapshots : Nat → List Snapshot

/-- Modelled from the spec: `snapshotService.findAll(playerId, limit)`, the first `limit`
snapshots of the player. -/
def findAllSnapshots (db : Database) (playerId : Nat) (limit : Nat) : List Snapshot :=
  (db.snapshots playerId).take limit

/-- Modelled from the spec: the achievement store, the table behind the Sequelize model
`Achievement` (not part of the sources), as the list of its rows in insertion order. -/
abbrev Store := List Achievement

/-- Modelled from the spec: `Achievement.findAll({ where: { playerId } })`. -/
def findAllAchievements (store : Store) (playerId : Nat) : List Achievement :=
  store.filter fun e => e.playerId == playerId

/-- Two rows with the same primary key `(playerId, type)`. -/
def sameKey (a b : Achievement) : Bool :=
  a.playerId == b.playerId && a.type == b.type

/-- Insert one row unless a row with its key is stored already. -/
def insertIgnore (store : Store) (row : Achievement) : Store :=
  if store.any (sameKey row) then store else store ++ [row]

/-- Modelled from the spec: `Achievement.bulkCreate(rows, { ignoreDuplicates: true })`, bulk
insert with duplicate-key skipping on `(playerId, type)`: rows are inserted in order, and a
row whose key is present (stored before, or inserted earlier by the same call) is skipped. -/
def bulkCreate (store : Store) (rows : List Achievement) : Store :=
  rows.foldl insertIgnore store

/-! ## Date backfill scanner -/

/-- The body of `newAchievements.forEach(a => ...)` in `addPastDates`: record
`Math.min(a.createdAt, next.createdAt)` under `a.type` unless the type has a date already.
`dateMap` is the object `{ type: date }` as an association list; a stored `Date` is always
truthy, also `new Date(0)`. Types are taken not to name a property every object inherits
(such as `constructor`). -/
def recordDate (next : Snapshot) (dateMap : List (String × Int)) (a : DatedDefinition) :
    List (String × Int) :=
  if (dateMap.lookup a.type).isNone then dateMap ++ [(a.type, min a.createdAt next.createdAt)]
  else dateMap

/-- The loop `for (i = 0; i < allSnapshots.length - 1; i++)` of `addPastDates`, over the
consecutive pairs `prev = allSnapshots[i]`, `next = allSnapshots[i + 1]`. -/
def scanPairs (cfg : Config) (now : Int) : List Snapshot → List (String × Int) →
    List (String × Int)
  | prev :: next :: rest, dateMap =>
    scanPairs cfg now (next :: rest)
      ((getNewAchievements cfg now (some prev) (some next)).foldl (recordDate next) dateMap)
  | _, dateMap => dateMap

/-- Source: `addPastDates`. -/
def addPastDates (cfg : Config) (db : Database) (now : Int) (playerId : Nat)
    (achievements : List Achievement) : List Achievement :=
  if achievements.isEmpty then []
  else
    let allSnapshots := findAllSnapshots db playerId 1000
    if allSnapshots.length < 2 then achievements
    else
      let dateMap := scanPairs cfg now allSnapshots []
      achievements.map fun a =>
        { a with createdAt := (dateMap.lookup a.type).getD a.createdAt }

/-! ## Reconciler -/

/-- Source: `syncAchievements`. The state is the achievement table; the result is the table
after the call. -/
def syncAchievements (cfg : Config) (db : Database) (now : Int) (playerId : Nat)
    (store : Store) : Store :=
  match findAllSnapshots db playerId 10 with
  | current :: previous :: _ =>
    let existingAchievements := findAllAchievements store playerId
    let previousAchievements :=
      (getPreviousAchievements cfg (some previous)).map (withPlayer playerId)
    let missingAchievements := previousAchievements.filter fun a =>
      (existingAchievements.find? fun e => e.type == a.type).isNone
    let datedMissingAchievements := addPastDates cfg db now playerId missingAchievements
    let newAchievements :=
      (getNewAchievements cfg now (some current) (some previous)).map (withPlayer playerId)
    let toInsert := datedMissingAchievements ++ newAchievements
    if toInsert.isEmpty then store else bulkCreate store toInsert
  | _ => store

/-- Modelled from the spec: `Achievement.destroy({ where: { playerId, type: types } })`,
delete the rows of the player whose type is one of `types`. -/
def destroy (store : Store) (playerId : Nat) (types : List String) : Store :=
  store.filter fun e => !(e.playerId == playerId && types.contains e.type)

/-- Source: `reevaluateAchievements`, on the path where the transaction commits. -/
def reevaluateAchievements (cfg : Config) (db : Database) (now : Int) (playerId : Nat)
    (store : Store) : Store :=
  let unknown := store.filter fun e => e.playerId == playerId && e.createdAt == 0
  let datedUnknownAchievements := addPastDates cfg db now playerId unknown
  let toUpdate := (datedUnknownAchievements.filter fun d => decide (d.createdAt > 0)).map
    fun t => { t with playerId := playerId }
  if toUpdate.isEmpty then store
  else bulkCreate (destroy store playerId (toUpdate.map fun t => t.type)) toUpdate

/-! ## Query accessor -/

/-- An entry of the list `getPlayerAchievements` returns. `createdAt` is `none` for `null`;
`missing` is `false` where the property is absent (persisted rows). -/
structure AchievementView where
  playerId : Nat
  type : String
  metric : String
  threshold : JSNumber
  createdAt : Option Int
  missing : Bool
  measure : String
deriving DecidableEq, Repr

/-- The call `parseInt(a.threshold)`: an integer below `1e21` parses back to itself and
`NaN` to `NaN`. -/
def parseInt (threshold : JSNumber) : JSNumber := threshold

/-- The last `map` of `getPlayerAchievements`: attach the measure and coerce the threshold. -/
def withMeasure (cfg : Config) (a : AchievementView) : AchievementView :=
  { a with
    measure := if a.metric == "combat" then "levels" else cfg.getMeasure a.metric
    threshold := parseInt a.threshold }

/-- A persisted row as an entry of the result, before `withMeasure`. -/
def persistedView (a : Achievement) : AchievementView :=
  { playerId := a.playerId, type := a.type, metric := a.metric, threshold := a.threshold
    createdAt := some a.createdAt, missing := false, measure := "" }

/-- The placeholder `{ playerId, type, metric, threshold, createdAt: null, missing: true }`. -/
def missingView (playerId : Nat) (d : Definition) : AchievementView :=
  { playerId := playerId, type := d.type, metric := d.metric, threshold := d.threshold
    createdAt := none, missing := true, measure := "" }

/-- Source: `getPlayerAchievements`. Without `includeMissing` the raw rows are returned (no
measure is attached). -/
def getPlayerAchievements (cfg : Config) (store : Store) (playerId : Nat)
    (includeMissing : Bool) : List AchievementView :=
  let achievements := findAllAchievements store playerId
  if !includeMissing then achievements.map persistedView
  else
    let achievedTypes := achievements.map fun a => a.type
    let definitions := getDefinitions cfg
    let missingAchievements :=
      (definitions.filter fun d => !achievedTypes.contains d.type).map (missingView playerId)
    (achievements.map persistedView ++ missingAchievements).map (withMeasure cfg)

/-! ## Sample configurations and histories -/

/-- A snapshot taken at `createdAt` whose only tracked column is `key`, with value `value`;
every other column holds the untracked sentinel. -/
def snapshotOf (createdAt : Int) (key : String) (value : Int) : Snapshot :=
  { createdAt := createdAt, values := fun k => if k = key then value else -1 }

/-- The boss template of the zulrah scenario. -/
def zulrahTemplate : Template :=
  { type := "1k {boss} kills", metric := none, thresholds := [1000], validate := fun _ => false }

/-- The catalog of the zulrah scenario: the boss template `"1k {boss} kills"` with the single
threshold 1000, one boss, difficulty factor 1, display name "Zulrah". -/
def zulrahConfig : Config where
  SKILLS := []
  ACTIVITIES := []
  BOSSES := ["zulrah"]
  SKILL_ACHIEVEMENT_TEMPLATES := []
  ACTIVITY_ACHIEVEMENT_TEMPLATES := []
  BOSS_ACHIEVEMENT_TEMPLATES := [zulrahTemplate]
  CAPPED_MAX_TOTAL_XP := 299791913
  getDifficultyFactor := fun _ => 1
  getFormattedName := fun _ => "Zulrah"
  getMeasure := fun _ => "kills"
  getValueKey := fun m => m ++ "Kills"

/-- The snapshot `{ zulrah: 965 }`, taken at time 100. -/
def zulrah965 : Snapshot := snapshotOf 100 "zulrahKills" 965

/-- The snapshot `{ zulrah: 1018 }`, taken at time 200. -/
def zulrah1018 : Snapshot := snapshotOf 200 "zulrahKills" 1018

/-- A history of player 7 as the provider returns it: `zulrah1018` (newest), `zulrah965`. -/
def zulrahDatabase : Database :=
  { snapshots := fun playerId => if playerId = 7 then [zulrah1018, zulrah965] else [] }

/-- A catalog with one fixed template in the manner of "Maxed Overall": metric `overall`,
the single threshold `CAPPED_MAX_TOTAL_XP`, and a predicate of its own that asks for level
99 (13034431 experience) in the skill `attack`. -/
def maxedConfig : Config where
  SKILLS := ["overall", "attack"]
  ACTIVITIES := []
  BOSSES := []
  SKILL_ACHIEVEMENT_TEMPLATES :=
    [{ type := "Maxed Overall", metric := some "overall", thresholds := [299791913]
       validate := fun s => decide (s.values "attackExperience" ≥ 13034431) }]
  ACTIVITY_ACHIEVEMENT_TEMPLATES := []
  BOSS_ACHIEVEMENT_TEMPLATES := []
  CAPPED_MAX_TOTAL_XP := 299791913
  getDifficultyFactor := fun _ => 1
  getFormattedName := fun m => m
  getMeasure := fun _ => "experience"
  getValueKey := fun m => m ++ "Experience"

/-- A snapshot with 0 overall experience (time 100). -/
def overallZero : Snapshot := snapshotOf 100 "overallExperience" 0

/-- A snapshot in which overall experience is untracked (time 100). -/
def overallUntracked : Snapshot := snapshotOf 100 "attackExperience" 0

/-- A snapshot with 299791913 overall experience and no tracked attack experience
(time 200). -/
def overallCapped : Snapshot := snapshotOf 200 "overallExperience" 299791913

/-- A database in which every player has the history `snapshots`, in the order given. -/
def historyOf (snapshots : List Snapshot) : Database :=
  { snapshots := fun _ => snapshots }

/-- Zulrah history: 0 kills at time 100. -/
def zulrahS0 : Snapshot := snapshotOf 100 "zulrahKills" 0

/-- Zulrah history: 500 kills at time 200. -/
def zulrahS1 : Snapshot := snapshotOf 200 "zulrahKills" 500

/-- Zulrah history: zulrah untracked at time 200. -/
def zulrahS1Untracked : Snapshot := snapshotOf 200 "other" 0

/-- Zulrah history: 1000 kills at time 300. -/
def zulrahS2 : Snapshot := snapshotOf 300 "zulrahKills" 1000

/-- The achievement "1k Zulrah kills" of player 7 with the unknown date. -/
def zulrahUnknown : Achievement :=
  { playerId := 7, type := "1k Zulrah kills", metric := "zulrah"
    threshold := JSNumber.val 1000, createdAt := 0 }

/-- The `(type, metric, threshold)` triple of a definition. -/
def Definition.triple (d : Definition) : String × String × JSNumber :=
  (d.type, d.metric, d.threshold)

/-- A boss template that lists the threshold 1000 twice. -/
def repeatedThresholdConfig : Config :=
  { zulrahConfig with
    BOSS_ACHIEVEMENT_TEMPLATES :=
      [{ type := "{threshold} {boss} kills", metric := none, thresholds := [1000, 1000]
         validate := fun _ => false }] }

/-- A small catalog with all three kinds of template: a skill template without metric
(two thresholds), the fixed template "Maxed Overall", a template with the metric `overall`
and two thresholds, and a boss template without metric. -/
def sampleConfig : Config where
  SKILLS := ["overall", "attack", "cooking"]
  ACTIVITIES := []
  BOSSES := ["zulrah", "cerberus"]
  SKILL_ACHIEVEMENT_TEMPLATES :=
    [{ type := "{threshold} {skill}", metric := none, thresholds := [13034431, 50000000]
       validate := fun _ => false },
     { type := "Maxed Overall", metric := some "overall", thresholds := [299791913]
       validate := fun s => decide (s.values "attackExperience" ≥ 13034431) },
     { type := "{threshold} Overall Exp.", metric := some "overall"
       thresholds := [500000000, 1000000000], validate := fun _ => false }]
  ACTIVITY_ACHIEVEMENT_TEMPLATES := []
  BOSS_ACHIEVEMENT_TEMPLATES :=
    [{ type := "{threshold} {boss} kills", metric := none, thresholds := [500, 1000, 5000]
       validate := fun _ => false }]
  CAPPED_MAX_TOTAL_XP := 299791913
  getDifficultyFactor := fun _ => 1
  getFormattedName := fun m => m
  getMeasure := fun _ => "experience"
  getValueKey := fun m => m

/-- A boss template without metric and without thresholds. -/
def noThresholdBossTemplate : Template :=
  { type := "{threshold} {boss} kills", metric := none, thresholds := []
    validate := fun _ => false }

/-- A skill template with the metric `overall` and without thresholds. -/
def noThresholdSkillTemplate : Template :=
  { type := "Maxed Overall", metric := some "overall", thresholds := []
    validate := fun _ => false }

/-- A malformed configuration: both templates have an empty threshold list. -/
def emptyThresholdsConfig : Config :=
  { zulrahConfig with
    SKILLS := ["overall", "attack"]
    SKILL_ACHIEVEMENT_TEMPLATES := [noThresholdSkillTemplate]
    BOSS_ACHIEVEMENT_TEMPLATES := [noThresholdBossTemplate] }

/-- A malformed configuration: the zulrah template over an empty family of bosses. -/
def emptyFamilyConfig : Config :=
  { zulrahConfig with BOSSES := [] }

/-! ## Store invariant, scan order and failure model -/

/-- The primary key `(playerId, type)` of a row. -/
def rowKey (a : Achievement) : Nat × String := (a.playerId, a.type)

/-- The uniqueness invariant of the achievement table: at most one row per
`(playerId, type)`. -/
def uniqueKeys (store : Store) : Prop := (store.map rowKey).Nodup

instance uniqueKeysDecidable (store : Store) : Decidable (uniqueKeys store) :=
  inferInstanceAs (Decidable (store.map rowKey).Nodup)

/-- The consecutive pairs `(allSnapshots[i], allSnapshots[i + 1])` in the order in which
`addPastDates` scans them. -/
def consecutivePairs (snapshots : List Snapshot) : List (Snapshot × Snapshot) :=
  snapshots.zip snapshots.tail

/-- The date map `addPastDates` builds for a player: empty when fewer than two snapshots are
available. -/
def dateMapOf (cfg : Config) (db : Database) (now : Int) (playerId : Nat) :
    List (String × Int) :=
  if (findAllSnapshots db playerId 1000).length < 2 then []
  else scanPairs cfg now (findAllSnapshots db playerId 1000) []

/-- Where a storage failure strikes inside the transaction of `reevaluateAchievements`. -/
inductive StorageFault where
  | noFault : StorageFault
  | destroyFails : StorageFault
  | bulkCreateFails : StorageFault
deriving DecidableEq, Repr

/-- What a run of `reevaluateAchievements` leaves behind: the committed table, the working
copy of a transaction that was begun and neither committed nor rolled back (if any), and
whether the call rejected with the storage error. -/
structure Outcome where
  committed : Store
  openTransaction : Option Store
  raised : Bool
deriving DecidableEq, Repr

/-- Source: `reevaluateAchievements`, with the two storage calls of the transaction allowed
to fail. Modelled from the spec: the transactional wrapper (`sequelize.transaction()`,
`transaction.commit()`), in which the statements of a transaction act on a working copy of
the table that `commit` publishes. A rejected `await` leaves the function at once: the source
has no `catch` and no call of `rollback`, so nothing after the failing statement runs. -/
def reevaluateAchievementsWithFault (fault : StorageFault) (cfg : Config) (db : Database)
    (now : Int) (playerId : Nat) (store : Store) : Outcome :=
  let unknown := store.filter fun e => e.playerId == playerId && e.createdAt == 0
  let datedUnknownAchievements := addPastDates cfg db now playerId unknown
  let toUpdate := (datedUnknownAchievements.filter fun d => decide (d.createdAt > 0)).map
    fun t => { t with playerId := playerId }
  if toUpdate.isEmpty then { committed := store, openTransaction := none, raised := false }
  else
    match fault with
    | StorageFault.destroyFails =>
      { committed := store, openTransaction := some store, raised := true }
    | StorageFault.bulkCreateFails =>
      { committed := store
        openTransaction := some (destroy store playerId (toUpdate.map fun t => t.type))
        raised := true }
    | StorageFault.noFault =>
      { committed := bulkCreate (destroy store playerId (toUpdate.map fun t => t.type)) toUpdate
        openTransaction := none
        raised := false }

/-! ## Reference expansion of the templates -/

/-- The definition for metric `m` and template threshold `t`: the threshold is
`t × difficultyFactor(m)`, the type has its placeholders substituted, and the predicate
compares the metric's value with the scaled threshold. -/
def scaledDefinition (cfg : Config) (type : String) (m : String) (t : Nat) : Definition :=
  { type := formatType cfg type (t * cfg.getDifficultyFactor m) m
    metric := m
    threshold := JSNumber.val (t * cfg.getDifficultyFactor m)
    validate := fun snapshot =>
      decide (((t * cfg.getDifficultyFactor m : Nat) : Int) ≤
        snapshot.values (cfg.getValueKey m)) }

/-- The expansion of one template as the specification words it: without metric, one
definition for every metric of the family and every threshold; with a metric and several
thresholds, one definition per threshold; with a metric and a single threshold, exactly one
definition, which keeps the template's type and predicate. -/
def referenceExpansion (cfg : Config) (family : List String) (tpl : Template) :
    List Definition :=
  match tpl.metric with
  | none => (family.product tpl.thresholds).map fun mt => scaledDefinition cfg tpl.type mt.1 mt.2
  | some metric =>
    match tpl.thresholds with
    | [] => []
    | [t] =>
      [{ type := tpl.type, metric := metric
         threshold := JSNumber.val (t * cfg.getDifficultyFactor metric)
         validate := tpl.validate }]
    | thresholds => thresholds.map fun t => scaledDefinition cfg tpl.type metric t

/-- The reference catalog: skill templates over every skill except `overall`, activity
templates over every activity, boss templates over every boss. -/
def referenceDefinitions (cfg : Config) : List Definition :=
  (cfg.SKILL_ACHIEVEMENT_TEMPLATES.map
      (referenceExpansion cfg (cfg.SKILLS.filter fun s => decide (s ≠ "overall")))).flatten
    ++ (cfg.ACTIVITY_ACHIEVEMENT_TEMPLATES.map (referenceExpansion cfg cfg.ACTIVITIES)).flatten
    ++ (cfg.BOSS_ACHIEVEMENT_TEMPLATES.map (referenceExpansion cfg cfg.BOSSES)).flatten

/-! ## Further sample data -/

/-- A table that holds "1k Zulrah kills" of player 7 with the unknown date. -/
def zulrahStore : Store := [zulrahUnknown]

/-- A zulrah history, newest first: 1000 kills at 400, untracked at 300, 1000 kills at 200,
0 kills at 100. The type is newly crossed at the first pair (from untracked) and again at
the last pair. -/
def zulrahTwiceCrossed : List Snapshot :=
  [snapshotOf 400 "zulrahKills" 1000, snapshotOf 300 "other" 0,
   snapshotOf 200 "zulrahKills" 1000, snapshotOf 100 "zulrahKills" 0]

/-- The function `Math.floor` on a non-negative double. -/
def mathFloor (x : Frac) : Nat := x.num / x.den

/-- Whether `Math.floor(t / 1000)`, computed in binary64, is the integer quotient. -/
def floorAgrees (t : Nat) : Bool :=
  mathFloor (fdiv (ofNat t) (ofNat 1000)) == t / 1000

/-- Whether `floorAgrees` holds for the `n` thresholds from `lo` on. -/
def floorAgreesFrom (lo : Nat) : Nat → Bool
  | 0 => true
  | n + 1 => floorAgrees (lo + n) && floorAgreesFrom lo n

/-- The row `e` with the date backfill gives it: the date of its type in the date map of
the player, or its own date when the type has none. -/
def redate (cfg : Config) (db : Database) (now : Int) (playerId : Nat) (e : Achievement) :
    Achievement :=
  { e with createdAt := ((dateMapOf cfg db now playerId).lookup e.type).getD e.createdAt }

/-- The unknown-dated rows of the player. -/
def unknownRows (playerId : Nat) (store : Store) : List Achievement :=
  store.filter fun e => e.playerId == playerId && e.createdAt == 0

/-- The unknown-dated rows of the player that backfill resolves to a date after the epoch. -/
def resolvedRows (cfg : Config) (db : Database) (now : Int) (playerId : Nat) (store : Store) :
    List Achievement :=
  (unknownRows playerId store).filter fun e =>
    decide (0 < (redate cfg db now playerId e).createdAt)

/-! ## Distinctness conditions on a template configuration -/

/-- Whether `getDefinitions` hydrates the template (no metric, or several thresholds) rather
than pushing it as it is. -/
def isDynamic (tpl : Template) : Bool :=
  metricUnset tpl.metric || decide (1 < tpl.thresholds.length)

/-- The metrics a template is instantiated for: its family when it has no metric, its own
metric otherwise. -/
def templateMetrics (family : List String) (tpl : Template) : List String :=
  if metricUnset tpl.metric then family else [tpl.metric.getD ""]

/-- The thresholds of the template's definitions for the metric `m`: every template
threshold times the difficulty factor of `m` for a hydrated template, the single value
`thresholds[0] * factor` for a fixed one. -/
def scaledThresholds (cfg : Config) (tpl : Template) (m : String) : List JSNumber :=
  if isDynamic tpl then tpl.thresholds.map fun t => JSNumber.val (t * cfg.getDifficultyFactor m)
  else [firstThreshold tpl.thresholds (cfg.getDifficultyFactor m)]

/-- The type under which the template's definition for metric `m` and scaled threshold `T`
is pushed: `formatType(type, T, m)` for a hydrated template, the template's type as it is
for a fixed one. -/
def renderedType (cfg : Config) (tpl : Template) (m : String) (T : JSNumber) : String :=
  if isDynamic tpl then
    match T with
    | JSNumber.val n => formatType cfg tpl.type n m
    | JSNumber.nan => tpl.type
  else tpl.type

/-- The templates with the family each is expanded over, in the order `getDefinitions`
visits them. -/
def templatesInOrder (cfg : Config) : List (List String × Template) :=
  cfg.SKILL_ACHIEVEMENT_TEMPLATES.map (fun tpl => (trackableSkills cfg, tpl))
    ++ cfg.ACTIVITY_ACHIEVEMENT_TEMPLATES.map (fun tpl => (cfg.ACTIVITIES, tpl))
    ++ cfg.BOSS_ACHIEVEMENT_TEMPLATES.map (fun tpl => (cfg.BOSSES, tpl))

/-- A template repeats nothing: unless it has no threshold, no metric occurs twice among
those it is instantiated for, and for none of them a scaled threshold occurs twice. -/
def templateDistinct (cfg : Config) (x : List String × Template) : Prop :=
  ((templateMetrics x.1 x.2).Nodup ∨ x.2.thresholds = []) ∧
    ∀ m ∈ templateMetrics x.1 x.2, (scaledThresholds cfg x.2 m).Nodup

instance templateDistinctDecidable (cfg : Config) (x : List String × Template) :
    Decidable (templateDistinct cfg x) :=
  inferInstanceAs (Decidable (((templateMetrics x.1 x.2).Nodup ∨ x.2.thresholds = []) ∧
    ∀ m ∈ templateMetrics x.1 x.2, (scaledThresholds cfg x.2 m).Nodup))

/-- Two templates never render the same type for a metric and a scaled threshold they have
in common. -/
def noClash (cfg : Config) (a b : List String × Template) : Prop :=
  ∀ m ∈ templateMetrics a.1 a.2, m ∈ templateMetrics b.1 b.2 →
    ∀ T ∈ scaledThresholds cfg a.2 m, T ∈ scaledThresholds cfg b.2 m →
      renderedType cfg a.2 m T ≠ renderedType cfg b.2 m T

instance noClashDecidable (cfg : Config) (a b : List String × Template) :
    Decidable (noClash cfg a b) :=
  inferInstanceAs (Decidable (∀ m ∈ templateMetrics a.1 a.2, m ∈ templateMetrics b.1 b.2 →
    ∀ T ∈ scaledThresholds cfg a.2 m, T ∈ scaledThresholds cfg b.2 m →
      renderedType cfg a.2 m T ≠ renderedType cfg b.2 m T))

/-- The `(type, metric, threshold)` triples a template stands for, metric by metric and
threshold by threshold. -/
def templateTriples (cfg : Config) (x : List String × Template) :
    List (String × String × JSNumber) :=
  (templateMetrics x.1 x.2).flatMap fun m =>
    (scaledThresholds cfg x.2 m).map fun T => (renderedType cfg x.2 m T, m, T)

/-- The zulrah template listed twice among the boss templates. -/
def repeatedTemplateConfig : Config :=
  { zulrahConfig with BOSS_ACHIEVEMENT_TEMPLATES := [zulrahTemplate, zulrahTemplate] }

/-- Two boss templates with the same type and different thresholds. -/
def sharedTypeConfig : Config :=
  { zulrahConfig with
    BOSS_ACHIEVEMENT_TEMPLATES :=
      [{ type := "{threshold} {boss} kills", metric := none, thresholds := [500]
         validate := fun _ => false },
       { type := "{threshold} {boss} kills", metric := none, thresholds := [1000]
         validate := fun _ => false }] }

/-! ## Store lemmas -/

theorem mem_insertIgnore_of_mem {store : Store} {row r : Achievement} (h : r ∈ store) :
    r ∈ insertIgnore store row := by
  unfold insertIgnore
  split
  · exact h
  · exact List.mem_append_left _ h

theorem insertIgnore_hasKey (store : Store) (row : Achievement) :
    ∃ r ∈ insertIgnore store row, sameKey row r = true := by
  unfold insertIgnore
  split
  · rename_i h
    obtain ⟨r, hr, hk⟩ := List.any_eq_true.mp h
    exact ⟨r, hr, hk⟩
  · refine ⟨row, by simp, ?_⟩
    simp [sameKey]

theorem mem_bulkCreate_of_mem (rows : List Achievement) {store : Store} {r : Achievement}
    (h : r ∈ store) : r ∈ bulkCreate store rows := by
  induction rows generalizing store with
  | nil => simpa [bulkCreate] using h
  | cons row rows ih =>
    have := @ih (insertIgnore store row) (mem_insertIgnore_of_mem h)
    simpa [bulkCreate] using this

theorem bulkCreate_hasKey {rows : List Achievement} (store : Store) {row : Achievement}
    (h : row ∈ rows) : ∃ r ∈ bulkCreate store rows, sameKey row r = true := by
  induction rows generalizing store with
  | nil => cases h
  | cons x rows ih =>
    rcases List.mem_cons.mp h with rfl | h
    · obtain ⟨r, hr, hk⟩ := insertIgnore_hasKey store row
      exact ⟨r, by simpa [bulkCreate] using mem_bulkCreate_of_mem rows hr, hk⟩
    · obtain ⟨r, hr, hk⟩ := ih (insertIgnore store x) h
      exact ⟨r, by simpa [bulkCreate] using hr, hk⟩

theorem bulkCreate_eq_self {rows : List Achievement} {store : Store}
    (h : ∀ row ∈ rows, store.any (sameKey row) = true) : bulkCreate store rows = store := by
  induction rows with
  | nil => rfl
  | cons x rows ih =>
    have hx : insertIgnore store x = store := by
      unfold insertIgnore
      rw [if_pos (h x (by simp))]
    have := ih (fun row hr => h row (List.mem_cons_of_mem _ hr))
    simpa [bulkCreate, hx] using this

theorem sameKey_iff {a b : Achievement} :
    sameKey a b = true ↔ a.playerId = b.playerId ∧ a.type = b.type := by
  simp [sameKey]

/-! ## Backfill and reconciler lemmas -/

theorem addPastDates_nil (cfg : Config) (db : Database) (now : Int) (playerId : Nat) :
    addPastDates cfg db now playerId [] = [] := by
  simp [addPastDates]

/-- Backfill keeps every achievement, up to its date. -/
theorem addPastDates_keeps (cfg : Config) (db : Database) (now : Int) (playerId : Nat)
    {achievements : List Achievement} {a : Achievement} (h : a ∈ achievements) :
    ∃ b ∈ addPastDates cfg db now playerId achievements,
      b.playerId = a.playerId ∧ b.type = a.type := by
  unfold addPastDates
  have hne : achievements.isEmpty = false := by
    cases achievements with
    | nil => cases h
    | cons _ _ => rfl
  simp only [hne, Bool.false_eq_true, if_false]
  split
  · exact ⟨a, h, rfl, rfl⟩
  · exact ⟨_, List.mem_map_of_mem _ h, rfl, rfl⟩

theorem findAllSnapshots_ten {db : Database} {playerId : Nat} {current previous : Snapshot}
    {rest : List Snapshot} (h : db.snapshots playerId = current :: previous :: rest) :
    findAllSnapshots db playerId 10 = current :: previous :: rest.take 8 := by
  simp [findAllSnapshots, h]

/-- The table after `syncAchievements`, when the player has two snapshots. -/
theorem syncAchievements_eq (cfg : Config) {db : Database} (now : Int) {playerId : Nat}
    (store : Store) {current previous : Snapshot} {rest : List Snapshot}
    (h : db.snapshots playerId = current :: previous :: rest) :
    syncAchievements cfg db now playerId store =
      bulkCreate store
        (addPastDates cfg db now playerId
            (((getPreviousAchievements cfg (some previous)).map (withPlayer playerId)).filter
              fun a => ((findAllAchievements store playerId).find? fun e => e.type == a.type).isNone)
          ++ (getNewAchievements cfg now (some current) (some previous)).map (withPlayer playerId)) := by
  unfold syncAchievements
  rw [findAllSnapshots_ten h]
  simp only
  split
  · rename_i hempty
    rw [List.isEmpty_iff.mp hempty]
    rfl
  · rfl

/-- After `syncAchievements` the table has a row of the player for every definition that
holds on one of the two most recent snapshots. -/
theorem syncAchievements_hasRow {cfg : Config} {db : Database} {now : Int} {playerId : Nat}
    {store : Store} {current previous : Snapshot} {rest : List Snapshot}
    (h : db.snapshots playerId = current :: previous :: rest)
    {d : Definition} (hd : d ∈ getDefinitions cfg)
    (hv : d.validate current = true ∨ d.validate previous = true) :
    ∃ r ∈ syncAchievements cfg db now playerId store,
      r.playerId = playerId ∧ r.type = d.type := by
  rw [syncAchievements_eq cfg now store h]
  by_cases hp : d.validate previous = true
  · -- `d` is a baseline achievement
    have hmem : withPlayer playerId { toDefinition := d, createdAt := 0 } ∈
        (getPreviousAchievements cfg (some previous)).map (withPlayer playerId) := by
      apply List.mem_map_of_mem
      simp only [getPreviousAchievements, List.mem_map, List.mem_filter]
      exact ⟨d, ⟨hd, hp⟩, rfl⟩
    cases hf : ((findAllAchievements store playerId).find? fun e => e.type == d.type) with
    | some e =>
      have he := List.find?_some hf
      have hmem' := List.mem_of_find?_eq_some hf
      simp only [findAllAchievements, List.mem_filter, beq_iff_eq] at hmem'
      exact ⟨e, mem_bulkCreate_of_mem _ hmem'.1, hmem'.2, by simpa using he⟩
    | none =>
      have hmiss : withPlayer playerId { toDefinition := d, createdAt := 0 } ∈
          ((getPreviousAchievements cfg (some previous)).map (withPlayer playerId)).filter
            fun a => ((findAllAchievements store playerId).find? fun e => e.type == a.type).isNone := by
        rw [List.mem_filter]
        refine ⟨hmem, ?_⟩
        simp only [withPlayer]
        rw [hf]
        rfl
      obtain ⟨b, hb, hb1, hb2⟩ := addPastDates_keeps cfg db now playerId hmiss
      obtain ⟨r, hr, hk⟩ := bulkCreate_hasKey store (List.mem_append_left _ hb)
      rw [sameKey_iff] at hk
      exact ⟨r, hr, by rw [← hk.1, hb1]; rfl, by rw [← hk.2, hb2]; rfl⟩
  · -- `d` is newly crossed
    have hc : d.validate current = true := by
      rcases hv with hc | hc
      · exact hc
      · exact absurd hc hp
    have hmem : withPlayer playerId
        { toDefinition := d
          createdAt := if previous.values (cfg.getValueKey d.metric) = -1 then 0 else now } ∈
        (getNewAchievements cfg now (some current) (some previous)).map (withPlayer playerId) := by
      apply List.mem_map_of_mem
      simp only [getNewAchievements, List.mem_map, List.mem_filter]
      refine ⟨d, ⟨hd, ?_⟩, rfl⟩
      simp [hc, hp]
    obtain ⟨r, hr, hk⟩ := bulkCreate_hasKey store (List.mem_append_right _ hmem)
    rw [sameKey_iff] at hk
    exact ⟨r, hr, by rw [← hk.1]; rfl, by rw [← hk.2]; rfl⟩

theorem syncAchievements_short {cfg : Config} {db : Database} {now : Int} {playerId : Nat}
    {store : Store} (h : (db.snapshots playerId).length < 2) :
    syncAchievements cfg db now playerId store = store := by
  unfold syncAchievements findAllSnapshots
  match hs : db.snapshots playerId with
  | [] => simp
  | [x] => simp
  | x :: y :: rest => rw [hs] at h; simp only [List.length_cons] at h; omega

/-- A second `syncAchievements` over the same history inserts nothing. -/
theorem syncAchievements_again (cfg : Config) (db : Database) (now now' : Int) (playerId : Nat)
    (store : Store) :
    syncAchievements cfg db now' playerId (syncAchievements cfg db now playerId store) =
      syncAchievements cfg db now playerId store := by
  match hs : db.snapshots playerId with
  | [] => simp [syncAchievements_short, hs]
  | [x] => simp [syncAchievements_short, hs]
  | current :: previous :: rest =>
    rw [syncAchievements_eq cfg now' _ hs]
    generalize hS : syncAchievements cfg db now playerId store = S
    have hrow : ∀ d ∈ getDefinitions cfg,
        (d.validate current = true ∨ d.validate previous = true) →
        ∃ r ∈ S, r.playerId = playerId ∧ r.type = d.type := by
      intro d hd hv
      rw [← hS]
      exact syncAchievements_hasRow hs hd hv
    have hmissing : ((getPreviousAchievements cfg (some previous)).map (withPlayer playerId)).filter
        (fun a => ((findAllAchievements S playerId).find? fun e => e.type == a.type).isNone) = [] := by
      rw [List.filter_eq_nil_iff]
      intro a ha
      simp only [getPreviousAchievements, List.mem_map, List.mem_filter] at ha
      obtain ⟨_, ⟨d, ⟨hd, hv⟩, rfl⟩, rfl⟩ := ha
      obtain ⟨r, hr, hr1, hr2⟩ := hrow d hd (Or.inr hv)
      have : ((findAllAchievements S playerId).find? fun e => e.type == d.type).isSome = true := by
        rw [List.find?_isSome]
        exact ⟨r, by simp [findAllAchievements, hr, hr1], by simp [hr2]⟩
      simp only [withPlayer]
      cases hf : ((findAllAchievements S playerId).find? fun e => e.type == d.type) with
      | none => rw [hf] at this; cases this
      | some e => simp
    rw [hmissing, addPastDates_nil, List.nil_append]
    apply bulkCreate_eq_self
    intro row hrow'
    simp only [getNewAchievements, List.mem_map, List.mem_filter] at hrow'
    obtain ⟨_, ⟨d, ⟨hd, hv⟩, rfl⟩, rfl⟩ := hrow'
    have hc : d.validate current = true := by
      simp only [Bool.and_eq_true] at hv
      exact hv.2
    obtain ⟨r, hr, hr1, hr2⟩ := hrow d hd (Or.inl hc)
    rw [List.any_eq_true]
    exact ⟨r, hr, by rw [sameKey_iff]; exact ⟨hr1.symm, hr2.symm⟩⟩

/-! ## Catalog and diff engine lemmas -/

/-- A template is dynamic when it has no metric or several thresholds: its definitions are
hydrated with the threshold predicate. -/
theorem expandTemplate_dynamic {cfg : Config} {family : List String} {tpl : Template}
    (hdyn : metricUnset tpl.metric = true ∨ 1 < tpl.thresholds.length) {d : Definition}
    (hd : d ∈ expandTemplate cfg family tpl) :
    ∃ m T, d = hydrate cfg tpl.type m T := by
  unfold expandTemplate at hd
  by_cases hu : metricUnset tpl.metric = true
  · rw [if_pos hu] at hd
    simp only [List.mem_flatMap, List.mem_map] at hd
    obtain ⟨m, _, T, _, rfl⟩ := hd
    exact ⟨m, T, rfl⟩
  · have hlen : 1 < tpl.thresholds.length := by
      rcases hdyn with h | h
      · exact absurd h hu
      · exact h
    rw [if_neg hu] at hd
    simp only [hlen, if_true, List.mem_map] at hd
    obtain ⟨T, _, rfl⟩ := hd
    exact ⟨_, T, rfl⟩

theorem mem_getNewAchievements {cfg : Config} {now : Int} {current previous : Snapshot}
    {a : DatedDefinition} :
    a ∈ getNewAchievements cfg now (some current) (some previous) ↔
      ∃ d ∈ getDefinitions cfg, (d.validate previous = false ∧ d.validate current = true) ∧
        a = { toDefinition := d
              createdAt := if previous.values (cfg.getValueKey d.metric) = -1 then 0 else now } := by
  simp only [getNewAchievements, List.mem_map, List.mem_filter, Bool.and_eq_true,
    Bool.not_eq_true']
  constructor
  · rintro ⟨d, ⟨hd, hv⟩, rfl⟩
    exact ⟨d, hd, hv, rfl⟩
  · rintro ⟨d, hd, hv, rfl⟩
    exact ⟨d, ⟨hd, hv⟩, rfl⟩

/-- A catalog definition is returned by `getNewAchievements` exactly when its predicate is
false on `previous` and true on `current`. -/
theorem returned_iff {cfg : Config} {now : Int} {current previous : Snapshot} {d : Definition}
    (hd : d ∈ getDefinitions cfg) :
    (∃ a ∈ getNewAchievements cfg now (some current) (some previous), a.toDefinition = d) ↔
      (d.validate previous = false ∧ d.validate current = true) := by
  constructor
  · rintro ⟨a, ha, rfl⟩
    obtain ⟨d, _, hv, rfl⟩ := mem_getNewAchievements.mp ha
    exact hv
  · intro hv
    exact ⟨_, mem_getNewAchievements.mpr ⟨d, hd, hv, rfl⟩, rfl⟩

theorem hydrate_crossed (cfg : Config) (type m : String) (T : Nat) (current previous : Snapshot) :
    ((hydrate cfg type m T).validate previous = false ∧
      (hydrate cfg type m T).validate current = true) ↔
    (previous.values (cfg.getValueKey m) < (T : Int) ∧
      (T : Int) ≤ current.values (cfg.getValueKey m)) := by
  simp [hydrate]

/-! ## Date map lemmas -/

theorem recordDate_lookup_some {next : Snapshot} {dateMap : List (String × Int)}
    {k : String} {v : Int} (a : DatedDefinition) (h : dateMap.lookup k = some v) :
    (recordDate next dateMap a).lookup k = some v := by
  unfold recordDate
  split
  · rw [List.lookup_append, h]
    rfl
  · exact h

/-- A date once recorded is never replaced. -/
theorem foldl_recordDate_lookup_some {next : Snapshot} (l : List DatedDefinition)
    {dateMap : List (String × Int)} {k : String} {v : Int} (h : dateMap.lookup k = some v) :
    (l.foldl (recordDate next) dateMap).lookup k = some v := by
  induction l generalizing dateMap with
  | nil => exact h
  | cons a l ih => exact ih (recordDate_lookup_some a h)

theorem recordDate_lookup_none {next : Snapshot} {dateMap : List (String × Int)}
    {k : String} {a : DatedDefinition} (hk : a.type ≠ k) (h : dateMap.lookup k = none) :
    (recordDate next dateMap a).lookup k = none := by
  unfold recordDate
  split
  · rw [List.lookup_append, h]
    have : (k == a.type) = false := by
      rw [beq_eq_false_iff_ne]
      exact fun e => hk e.symm
    simp [List.lookup, this]
  · exact h

theorem recordDate_lookup_self {next : Snapshot} {dateMap : List (String × Int)}
    {a : DatedDefinition} (h : dateMap.lookup a.type = none) :
    (recordDate next dateMap a).lookup a.type = some (min a.createdAt next.createdAt) := by
  unfold recordDate
  rw [h]
  simp [List.lookup_append, h]

/-- The first achievement of a type that is met records the date of that type. -/
theorem foldl_recordDate_records {next : Snapshot} {k : String} {v : Int}
    (l : List DatedDefinition) {dateMap : List (String × Int)}
    (hall : ∀ a ∈ l, a.type = k → min a.createdAt next.createdAt = v)
    (hex : ∃ a ∈ l, a.type = k) (h : dateMap.lookup k = none) :
    (l.foldl (recordDate next) dateMap).lookup k = some v := by
  induction l generalizing dateMap with
  | nil =>
    obtain ⟨a, ha, _⟩ := hex
    cases ha
  | cons a l ih =>
    rw [List.foldl_cons]
    by_cases hk : a.type = k
    · apply foldl_recordDate_lookup_some
      rw [← hall a (List.mem_cons_self _ _) hk, ← hk]
      exact recordDate_lookup_self (by rw [hk]; exact h)
    · apply ih (fun b hb => hall b (List.mem_cons_of_mem _ hb))
      · obtain ⟨b, hb, hbk⟩ := hex
        rcases List.mem_cons.mp hb with rfl | hb
        · exact absurd hbk hk
        · exact ⟨b, hb, hbk⟩
      · exact recordDate_lookup_none hk h

theorem addPastDates_eq_map {cfg : Config} {db : Database} {now : Int} {playerId : Nat}
    {achievements : List Achievement}
    (h : 2 ≤ (findAllSnapshots db playerId 1000).length) :
    addPastDates cfg db now playerId achievements =
      achievements.map fun a =>
        { a with
          createdAt :=
            ((scanPairs cfg now (findAllSnapshots db playerId 1000) []).lookup a.type).getD
              a.createdAt } := by
  unfold addPastDates
  cases achievements with
  | nil => rfl
  | cons a l =>
    have : ¬ (findAllSnapshots db playerId 1000).length < 2 := by omega
    simp only [List.isEmpty_cons, Bool.false_eq_true, if_false, this]

/-! ## Distinctness of the catalog -/

/-- The definitions hydrated for one metric from distinct thresholds are distinct. -/
theorem hydrated_triples_nodup (cfg : Config) (type m : String) (thresholds : List Nat)
    (hth : thresholds.Nodup) (hf : cfg.getDifficultyFactor m ≠ 0) :
    ((((thresholds.map fun t => t * cfg.getDifficultyFactor m).map
      (hydrate cfg type m))).map Definition.triple).Nodup := by
  rw [List.map_map, List.map_map]
  apply List.Nodup.map_on _ hth
  intro t _ t' _ h
  simp only [Function.comp, Definition.triple, hydrate, Prod.mk.injEq, JSNumber.val.injEq] at h
  exact Nat.eq_of_mul_eq_mul_right (Nat.pos_of_ne_zero hf) h.2.2

theorem hydrated_triple_metric {cfg : Config} {type m : String} {thresholds : List Nat}
    {x : String × String × JSNumber}
    (hx : x ∈ (((thresholds.map fun t => t * cfg.getDifficultyFactor m).map
      (hydrate cfg type m))).map Definition.triple) : x.2.1 = m := by
  simp only [List.mem_map] at hx
  obtain ⟨_, ⟨_, _, rfl⟩, rfl⟩ := hx
  rfl

/-- One template contributes no repeated triple when the family and the thresholds have no
repeats and no difficulty factor is zero. -/
theorem expandTemplate_triples_nodup (cfg : Config) (family : List String) (tpl : Template)
    (hfam : family.Nodup) (hth : tpl.thresholds.Nodup)
    (hf : ∀ m, cfg.getDifficultyFactor m ≠ 0) :
    ((expandTemplate cfg family tpl).map Definition.triple).Nodup := by
  unfold expandTemplate
  by_cases hu : metricUnset tpl.metric = true
  · rw [if_pos hu, List.map_flatMap, List.nodup_flatMap]
    constructor
    · intro m _
      exact hydrated_triples_nodup cfg tpl.type m tpl.thresholds hth (hf m)
    · refine List.Pairwise.imp ?_ hfam
      intro m m' hne
      simp only [Function.onFun]
      rw [List.disjoint_left]
      intro x hx hx'
      exact hne ((hydrated_triple_metric hx).symm.trans (hydrated_triple_metric hx'))
  · rw [if_neg hu]
    simp only
    split
    · exact hydrated_triples_nodup cfg tpl.type _ tpl.thresholds hth (hf _)
    · simp

/-! ## Uniqueness invariant -/

theorem insertIgnore_uniqueKeys {store : Store} (row : Achievement) (h : uniqueKeys store) :
    uniqueKeys (insertIgnore store row) := by
  unfold insertIgnore
  split
  · exact h
  · rename_i hany
    unfold uniqueKeys at h ⊢
    rw [List.map_append, List.nodup_append]
    refine ⟨h, by simp, ?_⟩
    rw [List.disjoint_left]
    intro k hk hk'
    simp only [List.map_cons, List.map_nil, List.mem_singleton] at hk'
    obtain ⟨r, hr, hrk⟩ := List.mem_map.mp hk
    apply hany
    rw [List.any_eq_true]
    refine ⟨r, hr, ?_⟩
    rw [sameKey_iff]
    have hkey : rowKey r = rowKey row := hrk.trans hk'
    simp only [rowKey, Prod.mk.injEq] at hkey
    exact ⟨hkey.1.symm, hkey.2.symm⟩

/-- Duplicate-skipping bulk insert keeps the keys unique, whatever rows it is given. -/
theorem bulkCreate_uniqueKeys (rows : List Achievement) {store : Store} (h : uniqueKeys store) :
    uniqueKeys (bulkCreate store rows) := by
  induction rows generalizing store with
  | nil => exact h
  | cons row rows ih => exact ih (insertIgnore_uniqueKeys row h)

theorem destroy_uniqueKeys (playerId : Nat) (types : List String) {store : Store}
    (h : uniqueKeys store) : uniqueKeys (destroy store playerId types) := by
  unfold uniqueKeys destroy at *
  exact h.sublist ((List.filter_sublist store).map rowKey)

theorem syncAchievements_uniqueKeys (cfg : Config) (db : Database) (now : Int) (playerId : Nat)
    {store : Store} (h : uniqueKeys store) :
    uniqueKeys (syncAchievements cfg db now playerId store) := by
  match hs : db.snapshots playerId with
  | [] => rw [syncAchievements_short (by simp [hs])]; exact h
  | [x] => rw [syncAchievements_short (by simp [hs])]; exact h
  | current :: previous :: rest =>
    rw [syncAchievements_eq cfg now store hs]
    exact bulkCreate_uniqueKeys _ h

theorem reevaluateAchievements_uniqueKeys (cfg : Config) (db : Database) (now : Int)
    (playerId : Nat) {store : Store} (h : uniqueKeys store) :
    uniqueKeys (reevaluateAchievements cfg db now playerId store) := by
  unfold reevaluateAchievements
  simp only
  split
  · exact h
  · exact bulkCreate_uniqueKeys _ (destroy_uniqueKeys _ _ h)

/-! ## Thin histories -/

theorem addPastDates_short {cfg : Config} {db : Database} {now : Int} {playerId : Nat}
    (achievements : List Achievement) (h : (db.snapshots playerId).length < 2) :
    addPastDates cfg db now playerId achievements = achievements := by
  unfold addPastDates
  cases achievements with
  | nil => rfl
  | cons a l =>
    have hlen : (findAllSnapshots db playerId 1000).length < 2 := by
      unfold findAllSnapshots
      rw [List.length_take]
      omega
    simp [hlen]

/-! ## Scan order of the backfill -/

/-- One step of the scan: the dates recorded at the pair `(prev, next)`. -/
theorem scanPairs_cons_cons (cfg : Config) (now : Int) (prev next : Snapshot)
    (rest : List Snapshot) (dateMap : List (String × Int)) :
    scanPairs cfg now (prev :: next :: rest) dateMap =
      scanPairs cfg now (next :: rest)
        ((getNewAchievements cfg now (some prev) (some next)).foldl (recordDate next) dateMap) := by
  rw [scanPairs]

theorem scanPairs_nil (cfg : Config) (now : Int) (dateMap : List (String × Int)) :
    scanPairs cfg now [] dateMap = dateMap := by
  simp [scanPairs]

theorem scanPairs_singleton (cfg : Config) (now : Int) (s : Snapshot)
    (dateMap : List (String × Int)) : scanPairs cfg now [s] dateMap = dateMap := by
  simp [scanPairs]

theorem consecutivePairs_cons_cons (prev next : Snapshot) (rest : List Snapshot) :
    consecutivePairs (prev :: next :: rest) = (prev, next) :: consecutivePairs (next :: rest) := by
  simp [consecutivePairs]

theorem scanPairs_short (cfg : Config) (now : Int) {snapshots : List Snapshot}
    (h : snapshots.length < 2) (dateMap : List (String × Int)) :
    scanPairs cfg now snapshots dateMap = dateMap := by
  match snapshots, h with
  | [], _ => exact scanPairs_nil cfg now dateMap
  | [_], _ => exact scanPairs_singleton cfg now _ dateMap
  | _ :: _ :: _, h => simp only [List.length_cons] at h; omega

theorem consecutivePairs_short {snapshots : List Snapshot} (h : snapshots.length < 2) :
    consecutivePairs snapshots = [] := by
  match snapshots, h with
  | [], _ => rfl
  | [_], _ => rfl
  | _ :: _ :: _, h => simp only [List.length_cons] at h; omega

/-- A date once recorded survives the rest of the scan. -/
theorem scanPairs_lookup_some (cfg : Config) (now : Int) (snapshots : List Snapshot)
    {dateMap : List (String × Int)} {k : String} {v : Int} (h : dateMap.lookup k = some v) :
    (scanPairs cfg now snapshots dateMap).lookup k = some v := by
  induction snapshots generalizing dateMap with
  | nil => rw [scanPairs_nil]; exact h
  | cons prev rest ih =>
    cases rest with
    | nil => rw [scanPairs_singleton]; exact h
    | cons next rest =>
      rw [scanPairs_cons_cons]
      exact ih (foldl_recordDate_lookup_some _ h)

theorem foldl_recordDate_lookup_none {next : Snapshot} {k : String}
    (l : List DatedDefinition) {dateMap : List (String × Int)}
    (hall : ∀ a ∈ l, a.type ≠ k) (h : dateMap.lookup k = none) :
    (l.foldl (recordDate next) dateMap).lookup k = none := by
  induction l generalizing dateMap with
  | nil => exact h
  | cons a l ih =>
    rw [List.foldl_cons]
    exact ih (fun b hb => hall b (List.mem_cons_of_mem _ hb))
      (recordDate_lookup_none (hall a (List.mem_cons_self _ _)) h)

/-- A type that is newly crossed at no pair of the scan gets no date. -/
theorem scanPairs_lookup_none (cfg : Config) (now : Int) (snapshots : List Snapshot)
    {dateMap : List (String × Int)} {k : String}
    (hall : ∀ p ∈ consecutivePairs snapshots,
      ∀ a ∈ getNewAchievements cfg now (some p.1) (some p.2), a.type ≠ k)
    (h : dateMap.lookup k = none) :
    (scanPairs cfg now snapshots dateMap).lookup k = none := by
  induction snapshots generalizing dateMap with
  | nil => rw [scanPairs_nil]; exact h
  | cons prev rest ih =>
    cases rest with
    | nil => rw [scanPairs_singleton]; exact h
    | cons next rest =>
      rw [scanPairs_cons_cons]
      rw [consecutivePairs_cons_cons] at hall
      apply ih
      · intro p hp
        exact hall p (List.mem_cons_of_mem _ hp)
      · exact foldl_recordDate_lookup_none _ (hall (prev, next) (List.mem_cons_self _ _)) h

/-- The first achievement of type `k` in a list, when there is one, dates the type. -/
theorem foldl_recordDate_first {next : Snapshot} {a : DatedDefinition}
    (l : List DatedDefinition) {dateMap : List (String × Int)}
    (hfirst : l.find? (fun b => b.type == a.type) = some a)
    (h : dateMap.lookup a.type = none) :
    (l.foldl (recordDate next) dateMap).lookup a.type =
      some (min a.createdAt next.createdAt) := by
  induction l generalizing dateMap with
  | nil => simp at hfirst
  | cons b l ih =>
    rw [List.foldl_cons]
    by_cases hb : b.type = a.type
    · have hbeq : (b.type == a.type) = true := by simpa using hb
      rw [List.find?_cons, hbeq] at hfirst
      have hba : b = a := Option.some.inj hfirst
      subst hba
      exact foldl_recordDate_lookup_some _ (recordDate_lookup_self h)
    · have hbeq : (b.type == a.type) = false := by simpa using hb
      rw [List.find?_cons, hbeq] at hfirst
      exact ih hfirst (recordDate_lookup_none hb h)

/-- The date of a type is the one computed at the first pair of the scan at which the type
is newly crossed. -/
theorem scanPairs_first (cfg : Config) (now : Int) (snapshots : List Snapshot)
    {dateMap : List (String × Int)} {a : DatedDefinition}
    (before after : List (Snapshot × Snapshot)) (prev next : Snapshot)
    (hpairs : consecutivePairs snapshots = before ++ (prev, next) :: after)
    (hbefore : ∀ p ∈ before,
      ∀ b ∈ getNewAchievements cfg now (some p.1) (some p.2), b.type ≠ a.type)
    (hfirst : (getNewAchievements cfg now (some prev) (some next)).find?
      (fun b => b.type == a.type) = some a)
    (h : dateMap.lookup a.type = none) :
    (scanPairs cfg now snapshots dateMap).lookup a.type =
      some (min a.createdAt next.createdAt) := by
  induction snapshots generalizing dateMap before with
  | nil => simp [consecutivePairs] at hpairs
  | cons s rest ih =>
    cases rest with
    | nil => simp [consecutivePairs] at hpairs
    | cons s' rest =>
      rw [scanPairs_cons_cons]
      rw [consecutivePairs_cons_cons] at hpairs
      cases before with
      | nil =>
        simp only [List.nil_append, List.cons.injEq, Prod.mk.injEq] at hpairs
        obtain ⟨⟨rfl, rfl⟩, _⟩ := hpairs
        exact scanPairs_lookup_some _ _ _ (foldl_recordDate_first _ hfirst h)
      | cons p before =>
        simp only [List.cons_append, List.cons.injEq] at hpairs
        obtain ⟨hp, hpairs⟩ := hpairs
        apply ih before hpairs (fun q hq => hbefore q (List.mem_cons_of_mem _ hq))
        apply foldl_recordDate_lookup_none
        · have := hbefore p (List.mem_cons_self _ _)
          rw [← hp] at this
          exact this
        · exact h

/-- Backfill rewrites nothing but dates: every achievement gets the date its type has in
the date map of the player, or keeps its own. -/
theorem addPastDates_eq_redate (cfg : Config) (db : Database) (now : Int) (playerId : Nat)
    (achievements : List Achievement) :
    addPastDates cfg db now playerId achievements =
      achievements.map fun a =>
        { a with
          createdAt := ((dateMapOf cfg db now playerId).lookup a.type).getD a.createdAt } := by
  unfold addPastDates dateMapOf
  cases achievements with
  | nil => rfl
  | cons a l =>
    by_cases hlen : (findAllSnapshots db playerId 1000).length < 2
    · simp [hlen]
    · simp [hlen]

theorem dateMapOf_eq_scanPairs (cfg : Config) (db : Database) (now : Int) (playerId : Nat) :
    dateMapOf cfg db now playerId = scanPairs cfg now (findAllSnapshots db playerId 1000) [] := by
  unfold dateMapOf
  split
  · rename_i h
    rw [scanPairs_short cfg now h]
  · rfl

/-! ## The quotient `Math.floor(threshold / 1000)` in binary64 -/

theorem floorAgreesFrom_spec {lo n : Nat} (h : floorAgreesFrom lo n = true) {t : Nat}
    (hlo : lo ≤ t) (hhi : t < lo + n) : floorAgrees t = true := by
  induction n with
  | zero => omega
  | succ n ih =>
    simp only [floorAgreesFrom, Bool.and_eq_true] at h
    by_cases ht : t = lo + n
    · rw [ht]
      exact h.1
    · exact ih h.2 (by omega)

set_option maxRecDepth 100000 in
theorem floorAgrees_chunk0 : floorAgreesFrom 0 1000 = true := by decide

set_option maxRecDepth 100000 in
theorem floorAgrees_chunk1 : floorAgreesFrom 1000 1000 = true := by decide

set_option maxRecDepth 100000 in
theorem floorAgrees_chunk2 : floorAgreesFrom 2000 1000 = true := by decide

set_option maxRecDepth 100000 in
theorem floorAgrees_chunk3 : floorAgreesFrom 3000 1000 = true := by decide

set_option maxRecDepth 100000 in
theorem floorAgrees_chunk4 : floorAgreesFrom 4000 1000 = true := by decide

set_option maxRecDepth 100000 in
theorem floorAgrees_chunk5 : floorAgreesFrom 5000 1000 = true := by decide

set_option maxRecDepth 100000 in
theorem floorAgrees_chunk6 : floorAgreesFrom 6000 1000 = true := by decide

set_option maxRecDepth 100000 in
theorem floorAgrees_chunk7 : floorAgreesFrom 7000 1000 = true := by decide

set_option maxRecDepth 100000 in
theorem floorAgrees_chunk8 : floorAgreesFrom 8000 1000 = true := by decide

set_option maxRecDepth 100000 in
theorem floorAgrees_chunk9 : floorAgreesFrom 9000 1001 = true := by decide

/-- For every threshold up to 10000 the double quotient `threshold / 1000` floors to the
integer quotient. -/
theorem mathFloor_fdiv_thousand {t : Nat} (h : t ≤ 10000) :
    mathFloor (fdiv (ofNat t) (ofNat 1000)) = t / 1000 := by
  have hagree : floorAgrees t = true := by
    by_cases h0 : t < 1000
    · exact floorAgreesFrom_spec floorAgrees_chunk0 (by omega) (by omega)
    by_cases h1 : t < 2000
    · exact floorAgreesFrom_spec floorAgrees_chunk1 (by omega) (by omega)
    by_cases h2 : t < 3000
    · exact floorAgreesFrom_spec floorAgrees_chunk2 (by omega) (by omega)
    by_cases h3 : t < 4000
    · exact floorAgreesFrom_spec floorAgrees_chunk3 (by omega) (by omega)
    by_cases h4 : t < 5000
    · exact floorAgreesFrom_spec floorAgrees_chunk4 (by omega) (by omega)
    by_cases h5 : t < 6000
    · exact floorAgreesFrom_spec floorAgrees_chunk5 (by omega) (by omega)
    by_cases h6 : t < 7000
    · exact floorAgreesFrom_spec floorAgrees_chunk6 (by omega) (by omega)
    by_cases h7 : t < 8000
    · exact floorAgreesFrom_spec floorAgrees_chunk7 (by omega) (by omega)
    by_cases h8 : t < 9000
    · exact floorAgreesFrom_spec floorAgrees_chunk8 (by omega) (by omega)
    · exact floorAgreesFrom_spec floorAgrees_chunk9 (by omega) (by omega)
  simpa [floorAgrees] using hagree

/-! ## Refinement of the reference expansion -/

theorem scaledDefinition_eq_hydrate (cfg : Config) (type m : String) (t : Nat) :
    scaledDefinition cfg type m t = hydrate cfg type m (t * cfg.getDifficultyFactor m) := rfl

theorem expandTemplate_none (cfg : Config) (family : List String) (tpl : Template)
    (h : tpl.metric = none) :
    expandTemplate cfg family tpl = referenceExpansion cfg family tpl := by
  unfold expandTemplate referenceExpansion
  simp only [h, metricUnset, if_true, List.product, List.map_flatMap, List.map_map]
  rfl

theorem expandTemplate_some (cfg : Config) (family : List String) (tpl : Template)
    {m : String} (h : tpl.metric = some m) (hm : m ≠ "") (hth : tpl.thresholds ≠ []) :
    expandTemplate cfg family tpl = referenceExpansion cfg family tpl := by
  unfold expandTemplate referenceExpansion
  have hunset : metricUnset (some m) = false := by
    simp [metricUnset, hm]
  simp only [h, hunset, Bool.false_eq_true, if_false, Option.getD_some]
  match hths : tpl.thresholds with
  | [] => exact absurd hths hth
  | [t] => simp [firstThreshold]
  | t :: t' :: rest =>
    simp only [List.length_cons]
    rw [if_pos (by omega)]
    simp only [List.map_map]
    rfl

theorem expandTemplate_eq_reference (cfg : Config) (family : List String) (tpl : Template)
    (hmetric : tpl.metric ≠ some "") (hth : tpl.metric ≠ none → tpl.thresholds ≠ []) :
    expandTemplate cfg family tpl = referenceExpansion cfg family tpl := by
  cases h : tpl.metric with
  | none => exact expandTemplate_none cfg family tpl h
  | some m =>
    exact expandTemplate_some cfg family tpl h (fun hm => hmetric (by rw [h, hm]))
      (hth (by rw [h]; simp))

theorem flatMap_expandTemplate_eq_reference (cfg : Config) (family : List String)
    (templates : List Template)
    (hmetric : ∀ tpl ∈ templates, tpl.metric ≠ some "")
    (hth : ∀ tpl ∈ templates, tpl.metric ≠ none → tpl.thresholds ≠ []) :
    templates.flatMap (expandTemplate cfg family) =
      (templates.map (referenceExpansion cfg family)).flatten := by
  rw [List.flatMap]
  congr 1
  apply List.map_congr_left
  intro tpl htpl
  exact expandTemplate_eq_reference cfg family tpl (hmetric tpl htpl) (hth tpl htpl)

theorem trackableSkills_eq (cfg : Config) :
    trackableSkills cfg = cfg.SKILLS.filter fun s => decide (s ≠ "overall") := by
  unfold trackableSkills
  apply List.filter_congr
  intro s _
  rw [Bool.eq_iff_iff]
  simp

/-! ## Effect of the re-dating step -/

theorem mem_bulkCreate {rows : List Achievement} {store : Store} {r : Achievement}
    (h : r ∈ bulkCreate store rows) : r ∈ store ∨ r ∈ rows := by
  induction rows generalizing store with
  | nil => exact Or.inl h
  | cons row rows ih =>
    have h' : r ∈ bulkCreate (insertIgnore store row) rows := h
    rcases ih h' with hr | hr
    · unfold insertIgnore at hr
      split at hr
      · exact Or.inl hr
      · rcases List.mem_append.mp hr with hr | hr
        · exact Or.inl hr
        · exact Or.inr (by rw [List.mem_singleton.mp hr]; exact List.mem_cons_self _ _)
    · exact Or.inr (List.mem_cons_of_mem _ hr)

/-- Rows with fresh and pairwise different keys are all inserted. -/
theorem bulkCreate_inserts_all {rows : List Achievement} {store : Store}
    (hnodup : (rows.map rowKey).Nodup)
    (hfresh : ∀ r ∈ rows, ∀ e ∈ store, rowKey e ≠ rowKey r) :
    ∀ r ∈ rows, r ∈ bulkCreate store rows := by
  induction rows generalizing store with
  | nil => intro r hr; cases hr
  | cons row rows ih =>
    have hins : insertIgnore store row = store ++ [row] := by
      unfold insertIgnore
      rw [if_neg]
      intro hany
      obtain ⟨e, he, hk⟩ := List.any_eq_true.mp hany
      rw [sameKey_iff] at hk
      apply hfresh row (List.mem_cons_self _ _) e he
      simp only [rowKey, Prod.mk.injEq]
      exact ⟨hk.1.symm, hk.2.symm⟩
    rw [List.map_cons, List.nodup_cons] at hnodup
    intro r hr
    show r ∈ bulkCreate (insertIgnore store row) rows
    rw [hins]
    rcases List.mem_cons.mp hr with rfl | hr
    · exact mem_bulkCreate_of_mem rows (by simp)
    · apply ih hnodup.2 _ r hr
      intro r' hr' e he
      rcases List.mem_append.mp he with he | he
      · exact hfresh r' (List.mem_cons_of_mem _ hr') e he
      · rw [List.mem_singleton.mp he]
        intro hkey
        exact hnodup.1 (by rw [hkey]; exact List.mem_map_of_mem _ hr')

theorem mem_unknownRows {playerId : Nat} {store : Store} {e : Achievement} :
    e ∈ unknownRows playerId store ↔ e ∈ store ∧ e.playerId = playerId ∧ e.createdAt = 0 := by
  simp [unknownRows]

theorem mem_resolvedRows {cfg : Config} {db : Database} {now : Int} {playerId : Nat}
    {store : Store} {e : Achievement} :
    e ∈ resolvedRows cfg db now playerId store ↔
      (e ∈ store ∧ e.playerId = playerId ∧ e.createdAt = 0) ∧
        0 < (redate cfg db now playerId e).createdAt := by
  simp [resolvedRows, mem_unknownRows]

theorem redate_key (cfg : Config) (db : Database) (now : Int) (playerId : Nat)
    (e : Achievement) : rowKey (redate cfg db now playerId e) = rowKey e := rfl

/-- The table after `reevaluateAchievements`, in terms of the resolved rows. -/
theorem reevaluateAchievements_eq (cfg : Config) (db : Database) (now : Int) (playerId : Nat)
    (store : Store) :
    reevaluateAchievements cfg db now playerId store =
      if (resolvedRows cfg db now playerId store).isEmpty then store
      else bulkCreate
        (destroy store playerId ((resolvedRows cfg db now playerId store).map fun e => e.type))
        ((resolvedRows cfg db now playerId store).map (redate cfg db now playerId)) := by
  have hupdate : ((addPastDates cfg db now playerId
      (store.filter fun e => e.playerId == playerId && e.createdAt == 0)).filter
        fun d => decide (d.createdAt > 0)).map (fun t => { t with playerId := playerId }) =
      (resolvedRows cfg db now playerId store).map (redate cfg db now playerId) := by
    rw [addPastDates_eq_redate]
    show ((List.map (redate cfg db now playerId) (unknownRows playerId store)).filter
      fun d => decide (d.createdAt > 0)).map (fun t => { t with playerId := playerId }) = _
    rw [List.filter_map, List.map_map]
    apply List.map_congr_left
    intro e he
    have hp : e.playerId = playerId := by
      have := List.mem_of_mem_filter he
      exact (mem_unknownRows.mp this).2.1
    simp only [Function.comp, redate]
    rw [← hp]
  unfold reevaluateAchievements
  simp only [hupdate, List.map_map, List.isEmpty_eq_true, List.map_eq_nil_iff]
  rfl

theorem uniqueKeys_eq {store : Store} (h : uniqueKeys store) {e r : Achievement}
    (he : e ∈ store) (hr : r ∈ store) (hk : rowKey e = rowKey r) : e = r :=
  List.inj_on_of_nodup_map h he hr hk

theorem resolvedRows_sublist (cfg : Config) (db : Database) (now : Int) (playerId : Nat)
    (store : Store) : (resolvedRows cfg db now playerId store).Sublist store :=
  (List.filter_sublist _).trans (List.filter_sublist _)

theorem mem_destroy {store : Store} {playerId : Nat} {types : List String} {e : Achievement} :
    e ∈ destroy store playerId types ↔ e ∈ store ∧ ¬ (e.playerId = playerId ∧ e.type ∈ types) := by
  simp [destroy]
  intro _
  tauto

/-- Under the uniqueness invariant the delete removes exactly the resolved rows. -/
theorem mem_destroy_resolved {cfg : Config} {db : Database} {now : Int} {playerId : Nat}
    {store : Store} (h : uniqueKeys store) {e : Achievement} :
    e ∈ destroy store playerId ((resolvedRows cfg db now playerId store).map fun e => e.type) ↔
      e ∈ store ∧ e ∉ resolvedRows cfg db now playerId store := by
  rw [mem_destroy]
  constructor
  · rintro ⟨he, hnot⟩
    refine ⟨he, fun hres => hnot ⟨(mem_resolvedRows.mp hres).1.2.1, ?_⟩⟩
    exact List.mem_map_of_mem _ hres
  · rintro ⟨he, hnot⟩
    refine ⟨he, ?_⟩
    rintro ⟨hp, ht⟩
    obtain ⟨r, hr, hrt⟩ := List.mem_map.mp ht
    have hr' := mem_resolvedRows.mp hr
    have : e = r := uniqueKeys_eq h he hr'.1.1 (by
      simp only [rowKey, Prod.mk.injEq]
      exact ⟨hp.trans hr'.1.2.1.symm, hrt.symm⟩)
    exact hnot (this ▸ hr)

/-- Under the uniqueness invariant every re-dated row is inserted. -/
theorem redated_mem_bulkCreate {cfg : Config} {db : Database} {now : Int} {playerId : Nat}
    {store : Store} (h : uniqueKeys store) {e : Achievement}
    (he : e ∈ resolvedRows cfg db now playerId store) :
    redate cfg db now playerId e ∈ bulkCreate
      (destroy store playerId ((resolvedRows cfg db now playerId store).map fun e => e.type))
      ((resolvedRows cfg db now playerId store).map (redate cfg db now playerId)) := by
  apply bulkCreate_inserts_all _ _ _ (List.mem_map_of_mem _ he)
  · rw [List.map_map]
    have : (rowKey ∘ redate cfg db now playerId) = rowKey := by
      funext x
      rfl
    rw [this]
    exact List.Nodup.sublist ((resolvedRows_sublist cfg db now playerId store).map rowKey) h
  · intro r hr x hx hkey
    obtain ⟨r0, hr0, rfl⟩ := List.mem_map.mp hr
    rw [redate_key] at hkey
    have hx' := (mem_destroy_resolved h).mp hx
    have : x = r0 := uniqueKeys_eq h hx'.1 (mem_resolvedRows.mp hr0).1.1 hkey
    exact hx'.2 (this ▸ hr0)

/-! ## Storage failures inside the transaction -/

/-- Without a failure the committed table is the one `reevaluateAchievements` computes and
no transaction stays open. -/
theorem reevaluateAchievementsWithFault_noFault (cfg : Config) (db : Database) (now : Int)
    (playerId : Nat) (store : Store) :
    reevaluateAchievementsWithFault StorageFault.noFault cfg db now playerId store =
      { committed := reevaluateAchievements cfg db now playerId store
        openTransaction := none
        raised := false } := by
  unfold reevaluateAchievementsWithFault reevaluateAchievements
  simp only
  split <;> rfl

/-- A failing statement never changes the committed table; when there is something to
update it leaves the transaction open, since the source reaches neither `commit` nor a
`rollback`. -/
theorem reevaluateAchievementsWithFault_fault (fault : StorageFault) (cfg : Config)
    (db : Database) (now : Int) (playerId : Nat) (store : Store)
    (hfault : fault ≠ StorageFault.noFault) :
    (reevaluateAchievementsWithFault fault cfg db now playerId store).committed = store ∧
    ((reevaluateAchievementsWithFault fault cfg db now playerId store).raised = true →
      (reevaluateAchievementsWithFault fault cfg db now playerId store).openTransaction
        ≠ none) := by
  unfold reevaluateAchievementsWithFault
  simp only
  split
  · exact ⟨rfl, by simp⟩
  · cases fault with
    | noFault => exact absurd rfl hfault
    | destroyFails => exact ⟨rfl, by simp⟩
    | bulkCreateFails => exact ⟨rfl, by simp⟩

/-! ## Exact conditions for a catalog without repeated triple -/

theorem expandTemplate_triples (cfg : Config) (family : List String) (tpl : Template) :
    (expandTemplate cfg family tpl).map Definition.triple = templateTriples cfg (family, tpl) := by
  unfold expandTemplate templateTriples templateMetrics scaledThresholds renderedType isDynamic
  by_cases hu : metricUnset tpl.metric = true
  · simp only [hu, if_true, Bool.true_or, List.map_flatMap, List.map_map]
    rfl
  · have hu' : metricUnset tpl.metric = false := by simpa using hu
    by_cases hlen : 1 < tpl.thresholds.length
    · simp only [hu', Bool.false_eq_true, if_false, hlen, if_true, Bool.false_or, decide_True,
        List.map_map, List.flatMap_cons, List.flatMap_nil, List.append_nil]
      rfl
    · simp only [hu', Bool.false_eq_true, if_false, hlen, Bool.false_or, decide_False,
        List.map_cons, List.map_nil, List.flatMap_cons, List.flatMap_nil, List.append_nil]
      rfl

theorem getDefinitions_triples (cfg : Config) :
    (getDefinitions cfg).map Definition.triple =
      (templatesInOrder cfg).flatMap (templateTriples cfg) := by
  simp only [getDefinitions, templatesInOrder, List.map_append, List.map_flatMap,
    List.flatMap_append, List.flatMap_map, expandTemplate_triples]

theorem mem_templateTriples {cfg : Config} {a : List String × Template}
    {x : String × String × JSNumber} :
    x ∈ templateTriples cfg a ↔
      ∃ m ∈ templateMetrics a.1 a.2, ∃ T ∈ scaledThresholds cfg a.2 m,
        x = (renderedType cfg a.2 m T, m, T) := by
  simp only [templateTriples, List.mem_flatMap, List.mem_map]
  constructor
  · rintro ⟨m, hm, T, hT, rfl⟩
    exact ⟨m, hm, T, hT, rfl⟩
  · rintro ⟨m, hm, T, hT, rfl⟩
    exact ⟨m, hm, T, hT, rfl⟩

/-- Two templates contribute no common triple exactly when they do not clash. -/
theorem disjoint_templateTriples_iff (cfg : Config) (a b : List String × Template) :
    List.Disjoint (templateTriples cfg a) (templateTriples cfg b) ↔ noClash cfg a b := by
  rw [List.disjoint_left]
  constructor
  · intro h m hma hmb T hTa hTb heq
    apply h (mem_templateTriples.mpr ⟨m, hma, T, hTa, rfl⟩)
    rw [heq]
    exact mem_templateTriples.mpr ⟨m, hmb, T, hTb, rfl⟩
  · intro h x hxa hxb
    obtain ⟨m, hma, T, hTa, rfl⟩ := mem_templateTriples.mp hxa
    obtain ⟨m', hmb, T', hTb, heq⟩ := mem_templateTriples.mp hxb
    simp only [Prod.mk.injEq] at heq
    obtain ⟨hr, rfl, rfl⟩ := heq
    exact h m hma hmb T hTa hTb hr

theorem scaledThresholds_ne_nil (cfg : Config) {tpl : Template} (m : String)
    (h : tpl.thresholds ≠ []) : scaledThresholds cfg tpl m ≠ [] := by
  unfold scaledThresholds
  split
  · simpa using h
  · simp

theorem templateMetrics_fixed {family : List String} {tpl : Template}
    (h : isDynamic tpl = false) : templateMetrics family tpl = [tpl.metric.getD ""] := by
  unfold isDynamic at h
  simp only [Bool.or_eq_false_iff] at h
  unfold templateMetrics
  rw [h.1]
  rfl

/-- One template contributes no triple twice exactly when it is distinct in itself. -/
theorem nodup_templateTriples_iff (cfg : Config) (a : List String × Template) :
    (templateTriples cfg a).Nodup ↔ templateDistinct cfg a := by
  unfold templateTriples templateDistinct
  rw [List.nodup_flatMap]
  have hinner : ∀ m, ((scaledThresholds cfg a.2 m).map
      fun T => (renderedType cfg a.2 m T, m, T)).Nodup ↔ (scaledThresholds cfg a.2 m).Nodup := by
    intro m
    constructor
    · exact List.Nodup.of_map _
    · intro h
      apply List.Nodup.map_on _ h
      intro T _ T' _ heq
      simp only [Prod.mk.injEq] at heq
      exact heq.2.2
  have hmetric : ∀ {m m' : String} {x : String × String × JSNumber},
      x ∈ (scaledThresholds cfg a.2 m).map (fun T => (renderedType cfg a.2 m T, m, T)) →
      x ∈ (scaledThresholds cfg a.2 m').map (fun T => (renderedType cfg a.2 m' T, m', T)) →
      m = m' := by
    intro m m' x hx hx'
    obtain ⟨T, _, rfl⟩ := List.mem_map.mp hx
    obtain ⟨T', _, heq⟩ := List.mem_map.mp hx'
    simp only [Prod.mk.injEq] at heq
    exact heq.2.1.symm
  constructor
  · rintro ⟨hnodup, hpair⟩
    refine ⟨?_, fun m hm => (hinner m).mp (hnodup m hm)⟩
    by_cases hth : a.2.thresholds = []
    · exact Or.inr hth
    · left
      refine List.Pairwise.imp_of_mem ?_ hpair
      intro m m' hm _ hdisj hmm
      subst hmm
      simp only [Function.onFun] at hdisj
      obtain ⟨T, hT⟩ := List.exists_mem_of_ne_nil _ (scaledThresholds_ne_nil cfg m hth)
      exact List.disjoint_left.mp hdisj (List.mem_map_of_mem _ hT) (List.mem_map_of_mem _ hT)
  · rintro ⟨hmetrics, hscaled⟩
    refine ⟨fun m hm => (hinner m).mpr (hscaled m hm), ?_⟩
    rcases hmetrics with hnd | hth
    · refine List.Pairwise.imp ?_ hnd
      intro m m' hne
      simp only [Function.onFun]
      rw [List.disjoint_left]
      intro x hx hx'
      exact hne (hmetric hx hx')
    · by_cases hdyn : isDynamic a.2 = true
      · have hnil : ∀ m, scaledThresholds cfg a.2 m = [] := by
          intro m
          unfold scaledThresholds
          rw [if_pos hdyn, hth]
          rfl
        refine List.pairwise_of_forall (fun m m' => ?_)
        simp only [Function.onFun, hnil, List.map_nil]
        exact List.disjoint_nil_left _
      · have hfix : isDynamic a.2 = false := by simpa using hdyn
        rw [templateMetrics_fixed hfix]
        exact List.pairwise_singleton _ _

/-! ## Claims -/

/-- C1: for every player with at least two snapshots (`current` the most recent, `previous`
the second most recent) and every initial store, the store after `syncAchievements` holds a
row `(playerId, d.type)` for every catalog definition `d` whose predicate is true on
`current` or on `previous`. -/
theorem sync_stores_every_satisfied_definition (cfg : Config) (db : Database) (now : Int)
    (playerId : Nat) (store : Store) (current previous : Snapshot) (rest : List Snapshot)
    (h : db.snapshots playerId = current :: previous :: rest) :
    ∀ d ∈ getDefinitions cfg, (d.validate current = true ∨ d.validate previous = true) →
      ∃ r ∈ syncAchievements cfg db now playerId store,
        r.playerId = playerId ∧ r.type = d.type :=
  fun _ hd hv => syncAchievements_hasRow h hd hv

/-- Witness of C1 on the zulrah history of player 7 and the empty store. -/
theorem sync_stores_every_satisfied_definition_witness :
    zulrahDatabase.snapshots 7 = zulrah1018 :: zulrah965 :: [] ∧
    ∀ d ∈ getDefinitions zulrahConfig,
      (d.validate zulrah1018 = true ∨ d.validate zulrah965 = true) →
      ∃ r ∈ syncAchievements zulrahConfig zulrahDatabase 300 7 [],
        r.playerId = 7 ∧ r.type = d.type :=
  ⟨rfl, sync_stores_every_satisfied_definition zulrahConfig zulrahDatabase 300 7 []
    zulrah1018 zulrah965 [] rfl⟩

/-- C2: `syncAchievements` is idempotent: for every player, every store and every snapshot
history, a second run (at any later clock reading `now2`) over the same history leaves the
store exactly as the first run left it. -/
theorem sync_idempotent (cfg : Config) (db : Database) (now1 now2 : Int) (playerId : Nat)
    (store : Store) :
    syncAchievements cfg db now2 playerId (syncAchievements cfg db now1 playerId store) =
      syncAchievements cfg db now1 playerId store :=
  syncAchievements_again cfg db now1 now2 playerId store

/-- C6: for every snapshot `s`, `getNewAchievements(s, s)` is the empty list. -/
theorem getNewAchievements_self (cfg : Config) (now : Int) (s : Snapshot) :
    getNewAchievements cfg now (some s) (some s) = [] := by
  simp [getNewAchievements]

/-- C9: `formatThreshold` renders the documented examples exactly: 13034431 gives "99",
2277 gives "2277", 500 gives "500", 5000 gives "5k", 500000000 gives "500m" and 2500000000
gives "2.5b", for every value of the constant `CAPPED_MAX_TOTAL_XP` other than the four
plain examples (the constant renders as "2277" itself). -/
theorem formatThreshold_examples (cfg : Config)
    (h500 : cfg.CAPPED_MAX_TOTAL_XP ≠ 500) (h5k : cfg.CAPPED_MAX_TOTAL_XP ≠ 5000)
    (h500m : cfg.CAPPED_MAX_TOTAL_XP ≠ 500000000)
    (h2500m : cfg.CAPPED_MAX_TOTAL_XP ≠ 2500000000) :
    formatThreshold cfg 13034431 = "99" ∧ formatThreshold cfg 2277 = "2277" ∧
    formatThreshold cfg 500 = "500" ∧ formatThreshold cfg 5000 = "5k" ∧
    formatThreshold cfg 500000000 = "500m" ∧ formatThreshold cfg 2500000000 = "2.5b" := by
  refine ⟨by simp [formatThreshold], ?_, ?_, ?_, ?_, ?_⟩
  · unfold formatThreshold
    by_cases hc : 2277 = cfg.CAPPED_MAX_TOTAL_XP
    · rw [if_neg (by decide), if_pos hc]
    · rw [if_neg (by decide), if_neg hc, if_pos (by decide)]
      decide
  · unfold formatThreshold
    rw [if_neg (by decide), if_neg (Ne.symm h500), if_pos (by decide)]
    decide
  · unfold formatThreshold
    rw [if_neg (by decide), if_neg (Ne.symm h5k), if_neg (by decide), if_pos (by decide)]
    decide
  · unfold formatThreshold
    rw [if_neg (by decide), if_neg (Ne.symm h500m), if_neg (by decide), if_neg (by decide),
      if_pos (by decide)]
    decide
  · unfold formatThreshold
    rw [if_neg (by decide), if_neg (Ne.symm h2500m), if_neg (by decide), if_neg (by decide),
      if_neg (by decide)]
    decide

/-- Witness of C9 with `CAPPED_MAX_TOTAL_XP = 299791913` (23 skills at 13034431). -/
theorem formatThreshold_examples_witness :
    zulrahConfig.CAPPED_MAX_TOTAL_XP = 299791913 ∧
    formatThreshold zulrahConfig 13034431 = "99" ∧ formatThreshold zulrahConfig 2277 = "2277" ∧
    formatThreshold zulrahConfig 500 = "500" ∧ formatThreshold zulrahConfig 5000 = "5k" ∧
    formatThreshold zulrahConfig 500000000 = "500m" ∧
    formatThreshold zulrahConfig 2500000000 = "2.5b" :=
  ⟨rfl, formatThreshold_examples zulrahConfig (by decide) (by decide) (by decide) (by decide)⟩

/-- C10: for every store, `getPlayerAchievements(playerId, true)` is the player's persisted
rows (in order, not flagged missing) followed by one placeholder, flagged missing with
`createdAt` null, for each catalog definition whose type is not among the persisted types
(in catalog order); for a player with no persisted row the result is the full catalog, same
length, same types, metrics and thresholds in the same order, every entry flagged missing. -/
theorem getPlayerAchievements_includeMissing (cfg : Config) (store : Store) (playerId : Nat) :
    ((getPlayerAchievements cfg store playerId true).take
        (findAllAchievements store playerId).length).map
        (fun v => (v.playerId, v.type, v.metric, v.threshold, v.createdAt, v.missing))
      = (findAllAchievements store playerId).map
        (fun a => (a.playerId, a.type, a.metric, a.threshold, some a.createdAt, false)) ∧
    ((getPlayerAchievements cfg store playerId true).drop
        (findAllAchievements store playerId).length).map
        (fun v => (v.playerId, v.type, v.metric, v.threshold, v.createdAt, v.missing))
      = ((getDefinitions cfg).filter fun d =>
          decide (∀ a ∈ findAllAchievements store playerId, a.type ≠ d.type)).map
        (fun d => (playerId, d.type, d.metric, d.threshold, none, true)) ∧
    (findAllAchievements store playerId = [] →
      (getPlayerAchievements cfg store playerId true).length = (getDefinitions cfg).length ∧
      (getPlayerAchievements cfg store playerId true).map
          (fun v => (v.type, v.metric, v.threshold))
        = (getDefinitions cfg).map (fun d => (d.type, d.metric, d.threshold)) ∧
      ∀ v ∈ getPlayerAchievements cfg store playerId true,
        v.missing = true ∧ v.createdAt = none ∧ v.playerId = playerId) := by
  have hfilter : ((getDefinitions cfg).filter fun d =>
      !((findAllAchievements store playerId).map fun a => a.type).contains d.type) =
      ((getDefinitions cfg).filter fun d =>
          decide (∀ a ∈ findAllAchievements store playerId, a.type ≠ d.type)) := by
    apply List.filter_congr
    intro d _
    rw [Bool.eq_iff_iff]
    simp [List.contains_iff_exists_mem_beq]
  have hres : getPlayerAchievements cfg store playerId true =
      ((findAllAchievements store playerId).map persistedView).map (withMeasure cfg) ++
      (((getDefinitions cfg).filter fun d =>
          decide (∀ a ∈ findAllAchievements store playerId, a.type ≠ d.type)).map
        (missingView playerId)).map (withMeasure cfg) := by
    simp only [getPlayerAchievements, Bool.not_true, Bool.false_eq_true, if_false, hfilter,
      List.map_append]
  have hlen : (((findAllAchievements store playerId).map persistedView).map
      (withMeasure cfg)).length = (findAllAchievements store playerId).length := by simp
  refine ⟨?_, ?_, ?_⟩
  · rw [hres, ← hlen, List.take_left']
    · simp [List.map_map, Function.comp_def, withMeasure, persistedView, parseInt]
    · rfl
  · rw [hres, ← hlen, List.drop_left']
    · simp [List.map_map, Function.comp_def, withMeasure, missingView, parseInt]
    · rfl
  · intro hrows
    rw [hres, hrows]
    simp [List.map_map, Function.comp_def, withMeasure, missingView, parseInt]

/-- Witness of C10: player 7 with an empty store gets the one-entry zulrah catalog. -/
theorem getPlayerAchievements_includeMissing_witness :
    findAllAchievements [] 7 = [] ∧
    (getPlayerAchievements zulrahConfig [] 7 true).length = (getDefinitions zulrahConfig).length ∧
    (getPlayerAchievements zulrahConfig [] 7 true).map (fun v => (v.type, v.metric, v.threshold))
      = (getDefinitions zulrahConfig).map (fun d => (d.type, d.metric, d.threshold)) ∧
    ∀ v ∈ getPlayerAchievements zulrahConfig [] 7 true,
      v.missing = true ∧ v.createdAt = none ∧ v.playerId = 7 :=
  ⟨rfl, (getPlayerAchievements_includeMissing zulrahConfig [] 7).2.2 rfl⟩

/-- C3, as stated, fails: in the catalog `maxedConfig` the definition for metric `overall`
with threshold 299791913 has its threshold crossed between `overallZero` and
`overallCapped`, yet `getNewAchievements` returns nothing, because a fixed template keeps
its own predicate. -/
theorem crossed_iff_returned_counterexample :
    (getDefinitions maxedConfig).map (fun d => (d.type, d.metric, d.threshold))
      = [("Maxed Overall", "overall", JSNumber.val 299791913)] ∧
    overallZero.values (maxedConfig.getValueKey "overall") < 299791913 ∧
    299791913 ≤ overallCapped.values (maxedConfig.getValueKey "overall") ∧
    (getNewAchievements maxedConfig 300 (some overallCapped) (some overallZero)).length = 0 := by
  decide

/-- C3 (amended): `getNewAchievements(current, previous)` returns, in catalog order, exactly
the catalog definitions whose predicate is false on `previous` and true on `current`; a
definition hydrated from a template without metric or with several thresholds, for metric
`m` with threshold `T`, is returned iff `previous[m] < T <= current[m]`; a definition of a
fixed template (metric set, at most one threshold) is returned iff the template's own
`validate` is false on `previous` and true on `current`. -/
theorem getNewAchievements_returns_crossed (cfg : Config) (now : Int)
    (current previous : Snapshot) :
    (getNewAchievements cfg now (some current) (some previous)).map (fun a => a.toDefinition)
      = (getDefinitions cfg).filter (fun d => !d.validate previous && d.validate current) ∧
    (∀ (family : List String) (tpl : Template),
      (metricUnset tpl.metric = true ∨ 1 < tpl.thresholds.length) →
      ∀ d ∈ expandTemplate cfg family tpl, d ∈ getDefinitions cfg →
        ∃ T : Nat, d.threshold = JSNumber.val T ∧
          ((∃ a ∈ getNewAchievements cfg now (some current) (some previous),
              a.toDefinition = d) ↔
            (previous.values (cfg.getValueKey d.metric) < (T : Int) ∧
              (T : Int) ≤ current.values (cfg.getValueKey d.metric)))) ∧
    ∀ (family : List String) (tpl : Template),
      metricUnset tpl.metric = false → tpl.thresholds.length ≤ 1 →
      ∀ d ∈ expandTemplate cfg family tpl, d ∈ getDefinitions cfg →
        ((∃ a ∈ getNewAchievements cfg now (some current) (some previous),
            a.toDefinition = d) ↔
          (tpl.validate previous = false ∧ tpl.validate current = true)) := by
  refine ⟨?_, ?_, ?_⟩
  · simp [getNewAchievements, List.map_map, Function.comp_def]
  · intro family tpl hdyn d hd hcat
    obtain ⟨m, T, rfl⟩ := expandTemplate_dynamic hdyn hd
    exact ⟨T, rfl, (returned_iff hcat).trans (hydrate_crossed cfg tpl.type m T current previous)⟩
  · intro family tpl hset hlen d hd hcat
    have hv : d.validate = tpl.validate := by
      unfold expandTemplate at hd
      have hlen' : ¬ 1 < tpl.thresholds.length := by omega
      simp only [hset, Bool.false_eq_true, if_false, hlen', List.mem_singleton] at hd
      rw [hd]
    rw [returned_iff hcat, hv]

/-- Witness of C3, the zulrah scenario: previous `{ zulrah: 965 }` and current
`{ zulrah: 1018 }` yield exactly one achievement, "1k Zulrah kills" for metric `zulrah`
with threshold 1000, dated at detection time (300). -/
theorem getNewAchievements_returns_crossed_witness :
    (getNewAchievements zulrahConfig 300 (some zulrah1018) (some zulrah965)).map
        (fun a => (a.type, a.metric, a.threshold, a.createdAt))
      = [("1k Zulrah kills", "zulrah", JSNumber.val 1000, 300)] ∧
    ∃ T : Nat, (hydrate zulrahConfig "1k {boss} kills" "zulrah" 1000).threshold = JSNumber.val T ∧
      ((∃ a ∈ getNewAchievements zulrahConfig 300 (some zulrah1018) (some zulrah965),
          a.toDefinition = hydrate zulrahConfig "1k {boss} kills" "zulrah" 1000) ↔
        (zulrah965.values (zulrahConfig.getValueKey "zulrah") < (T : Int) ∧
          (T : Int) ≤ zulrah1018.values (zulrahConfig.getValueKey "zulrah"))) :=
  ⟨by decide,
    (getNewAchievements_returns_crossed zulrahConfig 300 zulrah1018 zulrah965).2.1
      ["zulrah"] zulrahTemplate (Or.inl rfl) _ (List.mem_singleton.mpr rfl)
      (List.mem_singleton.mpr rfl)⟩

/-- C4, as stated, fails in its last sentence: in the catalog `maxedConfig` the value of
`overall` is untracked in `overallUntracked` and at the threshold 299791913 in
`overallCapped`, yet no achievement is returned, because a fixed template keeps its own
predicate. -/
theorem untracked_returned_counterexample :
    (getDefinitions maxedConfig).map (fun d => (d.type, d.metric, d.threshold))
      = [("Maxed Overall", "overall", JSNumber.val 299791913)] ∧
    overallUntracked.values (maxedConfig.getValueKey "overall") = -1 ∧
    299791913 ≤ overallCapped.values (maxedConfig.getValueKey "overall") ∧
    (getNewAchievements maxedConfig 300 (some overallCapped) (some overallUntracked)).length
      = 0 := by
  decide

/-- C4 (amended): for every pair of snapshots and every achievement returned by
`getNewAchievements(current, previous)`, `createdAt` is the epoch-zero sentinel if the value
of the achievement's metric in `previous` is the untracked sentinel (-1), and the detection
time `now` otherwise. In particular a definition hydrated from a template without metric or
with several thresholds, with `previous[metric]` untracked and
`current[metric] >= threshold`, is returned with the unknown-date sentinel. -/
theorem getNewAchievements_createdAt (cfg : Config) (now : Int) (current previous : Snapshot) :
    (∀ a ∈ getNewAchievements cfg now (some current) (some previous),
      (previous.values (cfg.getValueKey a.metric) = -1 → a.createdAt = 0) ∧
      (previous.values (cfg.getValueKey a.metric) ≠ -1 → a.createdAt = now)) ∧
    ∀ (family : List String) (tpl : Template),
      (metricUnset tpl.metric = true ∨ 1 < tpl.thresholds.length) →
      ∀ d ∈ expandTemplate cfg family tpl, d ∈ getDefinitions cfg →
        ∀ T : Nat, d.threshold = JSNumber.val T →
          previous.values (cfg.getValueKey d.metric) = -1 →
          (T : Int) ≤ current.values (cfg.getValueKey d.metric) →
          ∃ a ∈ getNewAchievements cfg now (some current) (some previous),
            a.toDefinition = d ∧ a.createdAt = 0 := by
  constructor
  · intro a ha
    obtain ⟨d, _, _, rfl⟩ := mem_getNewAchievements.mp ha
    constructor
    · intro h
      simp [h]
    · intro h
      simp [h]
  · intro family tpl hdyn d hd hcat T hT hprev hcur
    obtain ⟨m, T', rfl⟩ := expandTemplate_dynamic hdyn hd
    have hTT : T' = T := by
      simpa [hydrate] using hT
    subst hTT
    have hm : (hydrate cfg tpl.type m T').metric = m := rfl
    rw [hm] at hprev hcur
    have hv := (hydrate_crossed cfg tpl.type m T' current previous).mpr
      ⟨by rw [hprev]; omega, hcur⟩
    refine ⟨_, mem_getNewAchievements.mpr ⟨_, hcat, hv, rfl⟩, rfl, ?_⟩
    simp [hm, hprev]

/-- Witness of C4 on the zulrah catalog: with zulrah untracked before (`snapshotOf 100
"other" 0`) and 1018 kills now, "1k Zulrah kills" is returned with the epoch-zero date. -/
theorem getNewAchievements_createdAt_witness :
    (getNewAchievements zulrahConfig 300 (some zulrah1018) (some (snapshotOf 100 "other" 0))).map
        (fun a => (a.type, a.createdAt)) = [("1k Zulrah kills", 0)] ∧
    ∃ a ∈ getNewAchievements zulrahConfig 300 (some zulrah1018) (some (snapshotOf 100 "other" 0)),
      a.toDefinition = hydrate zulrahConfig "1k {boss} kills" "zulrah" 1000 ∧ a.createdAt = 0 :=
  ⟨by decide,
    (getNewAchievements_createdAt zulrahConfig 300 zulrah1018 (snapshotOf 100 "other" 0)).2
      ["zulrah"] zulrahTemplate (Or.inl rfl) _ (List.mem_singleton.mpr rfl)
      (List.mem_singleton.mpr rfl) 1000 rfl (by decide) (by decide)⟩

/-- C5, as stated, fails: in the zulrah catalog "1k Zulrah kills" is false on `zulrahS0` and
on the middle snapshot and true on `zulrahS2`, yet `addPastDates` leaves the epoch-zero
sentinel instead of the middle snapshot's timestamp 200 when the history is scanned oldest
first (`getNewAchievements(prev, next)` takes `allSnapshots[i]` as the current snapshot), and
also, in either order, when zulrah is untracked in the middle snapshot. -/
theorem backfill_middle_timestamp_counterexample :
    (getDefinitions zulrahConfig).map
        (fun d => (d.type, d.validate zulrahS0, d.validate zulrahS1,
          d.validate zulrahS1Untracked, d.validate zulrahS2))
      = [("1k Zulrah kills", false, false, false, true)] ∧
    zulrahS1.createdAt = 200 ∧ zulrahS1Untracked.createdAt = 200 ∧
    (addPastDates zulrahConfig (historyOf [zulrahS0, zulrahS1, zulrahS2]) 400 7
        [zulrahUnknown]).map (fun a => a.createdAt) = [0] ∧
    (addPastDates zulrahConfig (historyOf [zulrahS0, zulrahS1Untracked, zulrahS2]) 400 7
        [zulrahUnknown]).map (fun a => a.createdAt) = [0] ∧
    (addPastDates zulrahConfig (historyOf [zulrahS2, zulrahS1Untracked, zulrahS0]) 400 7
        [zulrahUnknown]).map (fun a => a.createdAt) = [0] := by
  decide

/-- C5 (amended): when the history provider returns the snapshots newest first,
`[s2, s1, s0]`, and a catalog definition `d` is false on `s1` and true on `s2`, then
`addPastDates` gives every achievement of type `d.type` the timestamp of `s1`, provided
`s1` tracks the metric of every catalog definition of that type (its value is not -1) and
`s1` was not taken after the detection time `now`. -/
theorem addPastDates_middle_timestamp (cfg : Config) (db : Database) (now : Int)
    (playerId : Nat) (achievements : List Achievement) (s0 s1 s2 : Snapshot) (d : Definition)
    (hdb : db.snapshots playerId = [s2, s1, s0]) (hd : d ∈ getDefinitions cfg)
    (h1 : d.validate s1 = false) (h2 : d.validate s2 = true)
    (htracked : ∀ e ∈ getDefinitions cfg, e.type = d.type →
      s1.values (cfg.getValueKey e.metric) ≠ -1)
    (hnow : s1.createdAt ≤ now) :
    ∀ (i : Nat) (hi : i < achievements.length), achievements[i].type = d.type →
      (addPastDates cfg db now playerId achievements)[i]? =
        some { achievements[i] with createdAt := s1.createdAt } := by
  intro i hi htype
  have hsnaps : findAllSnapshots db playerId 1000 = [s2, s1, s0] := by
    simp [findAllSnapshots, hdb]
  have hlookup : (scanPairs cfg now [s2, s1, s0] []).lookup d.type = some s1.createdAt := by
    simp only [scanPairs]
    apply foldl_recordDate_lookup_some
    apply foldl_recordDate_records
    · intro a ha hk
      obtain ⟨e, he, _, rfl⟩ := mem_getNewAchievements.mp ha
      simp only [if_neg (htracked e he hk)]
      exact min_eq_right hnow
    · exact ⟨_, mem_getNewAchievements.mpr ⟨d, hd, ⟨h1, h2⟩, rfl⟩, rfl⟩
    · rfl
  rw [addPastDates_eq_map (by rw [hsnaps]; simp), hsnaps, List.getElem?_map,
    List.getElem?_eq_getElem hi]
  simp [htype, hlookup]

/-- Witness of C5 (amended): the zulrah history returned newest first dates
"1k Zulrah kills" with 200, the timestamp of the middle snapshot. -/
theorem addPastDates_middle_timestamp_witness :
    (addPastDates zulrahConfig (historyOf [zulrahS2, zulrahS1, zulrahS0]) 400 7
        [zulrahUnknown]).map (fun a => a.createdAt) = [200] ∧
    (addPastDates zulrahConfig (historyOf [zulrahS2, zulrahS1, zulrahS0]) 400 7
        [zulrahUnknown])[0]? = some { zulrahUnknown with createdAt := zulrahS1.createdAt } :=
  ⟨by decide,
    addPastDates_middle_timestamp zulrahConfig (historyOf [zulrahS2, zulrahS1, zulrahS0]) 400 7
      [zulrahUnknown] zulrahS0 zulrahS1 zulrahS2 (hydrate zulrahConfig "1k {boss} kills" "zulrah" 1000)
      rfl (List.mem_singleton.mpr rfl) (by decide) (by decide)
      (by
        intro e he _
        rw [List.mem_singleton.mp he]
        decide)
      (by decide) 0 (by decide) (by decide)⟩

/-- C7, as stated, fails: a boss template that lists the threshold 1000 twice yields the
triple ("1k Zulrah kills", "zulrah", 1000) twice, and so does the zulrah template listed
twice among the boss templates. -/
theorem getDefinitions_distinct_counterexample :
    (getDefinitions repeatedThresholdConfig).map Definition.triple
      = [("1k Zulrah kills", "zulrah", JSNumber.val 1000),
         ("1k Zulrah kills", "zulrah", JSNumber.val 1000)] ∧
    ¬ ((getDefinitions repeatedThresholdConfig).map Definition.triple).Nodup ∧
    (getDefinitions repeatedTemplateConfig).map Definition.triple
      = [("1k Zulrah kills", "zulrah", JSNumber.val 1000),
         ("1k Zulrah kills", "zulrah", JSNumber.val 1000)] ∧
    ¬ ((getDefinitions repeatedTemplateConfig).map Definition.triple).Nodup := by
  decide

/-- C7 (amended): the list returned by `getDefinitions` contains no two definitions with the
same `(type, metric, threshold)` triple exactly for the template configurations in which
every template is distinct in itself (unless it has no threshold, no metric occurs twice
among those it is instantiated for, and for none of them a scaled threshold occurs twice)
and no two templates render the same type for a metric and a scaled threshold they have in
common. -/
theorem getDefinitions_distinct_iff (cfg : Config) :
    ((getDefinitions cfg).map Definition.triple).Nodup ↔
      (∀ x ∈ templatesInOrder cfg, templateDistinct cfg x) ∧
        (templatesInOrder cfg).Pairwise (noClash cfg) := by
  rw [getDefinitions_triples, List.nodup_flatMap]
  constructor
  · rintro ⟨hnodup, hpair⟩
    refine ⟨fun x hx => (nodup_templateTriples_iff cfg x).mp (hnodup x hx), ?_⟩
    exact hpair.imp fun h => (disjoint_templateTriples_iff cfg _ _).mp h
  · rintro ⟨hdistinct, hclash⟩
    refine ⟨fun x hx => (nodup_templateTriples_iff cfg x).mpr (hdistinct x hx), ?_⟩
    exact hclash.imp fun h => (disjoint_templateTriples_iff cfg _ _).mpr h

/-- Witness of C7 (amended): the thirteen definitions of `sampleConfig` are distinct, and so
are the two of `sharedTypeConfig`, whose templates have the same type and different
thresholds. -/
theorem getDefinitions_distinct_iff_witness :
    (getDefinitions sampleConfig).length = 13 ∧
    ((getDefinitions sampleConfig).map Definition.triple).Nodup ∧
    (getDefinitions sharedTypeConfig).map Definition.triple
      = [("500 Zulrah kills", "zulrah", JSNumber.val 500),
         ("1k Zulrah kills", "zulrah", JSNumber.val 1000)] ∧
    ((getDefinitions sharedTypeConfig).map Definition.triple).Nodup :=
  ⟨by decide, (getDefinitions_distinct_iff sampleConfig).mpr (by decide), by decide,
    (getDefinitions_distinct_iff sharedTypeConfig).mpr (by decide)⟩

/-- C8, as stated, fails: `getDefinitions` has no failure path. For `emptyThresholdsConfig`
it returns a catalog to which the boss template contributes nothing and the skill template
one definition whose threshold is `NaN`; for `emptyFamilyConfig` it returns the empty
catalog. -/
theorem getDefinitions_fails_counterexample :
    emptyThresholdsConfig.BOSS_ACHIEVEMENT_TEMPLATES.map (fun t => t.thresholds) = [[]] ∧
    emptyThresholdsConfig.SKILL_ACHIEVEMENT_TEMPLATES.map (fun t => t.thresholds) = [[]] ∧
    (getDefinitions emptyThresholdsConfig).map Definition.triple
      = [("Maxed Overall", "overall", JSNumber.nan)] ∧
    emptyFamilyConfig.BOSSES = [] ∧
    emptyFamilyConfig.BOSS_ACHIEVEMENT_TEMPLATES.map (fun t => (t.metric, t.thresholds))
      = [(none, [1000])] ∧
    (getDefinitions emptyFamilyConfig).length = 0 := by
  decide

/-- C8 (amended): `getDefinitions` returns a catalog for every template configuration. A
template with an empty thresholds list or, when it has no metric, an empty metric family
contributes no definition if it has no metric, and otherwise exactly one definition, with
the template's type, metric and predicate and the threshold `NaN`, which is then part of
the catalog. -/
theorem expandTemplate_malformed (cfg : Config) (family : List String) (tpl : Template)
    (h : tpl.thresholds = [] ∨ (metricUnset tpl.metric = true ∧ family = [])) :
    (metricUnset tpl.metric = true → expandTemplate cfg family tpl = []) ∧
    (metricUnset tpl.metric = false →
      expandTemplate cfg family tpl =
        [{ type := tpl.type, metric := tpl.metric.getD "", threshold := JSNumber.nan
           validate := tpl.validate }] ∧
      (tpl ∈ cfg.SKILL_ACHIEVEMENT_TEMPLATES ∨ tpl ∈ cfg.ACTIVITY_ACHIEVEMENT_TEMPLATES ∨
          tpl ∈ cfg.BOSS_ACHIEVEMENT_TEMPLATES →
        ∃ d ∈ getDefinitions cfg, d.type = tpl.type ∧ d.metric = tpl.metric.getD "" ∧
          d.threshold = JSNumber.nan)) := by
  constructor
  · intro hu
    unfold expandTemplate
    rw [if_pos hu]
    rcases h with h | ⟨_, h⟩
    · simp [h]
    · simp [h]
  · intro hu
    have hth : tpl.thresholds = [] := by
      rcases h with h | ⟨h, _⟩
      · exact h
      · rw [hu] at h
        cases h
    have hexp : ∀ fam, expandTemplate cfg fam tpl =
        [{ type := tpl.type, metric := tpl.metric.getD "", threshold := JSNumber.nan
           validate := tpl.validate }] := by
      intro fam
      unfold expandTemplate
      simp [hu, hth, firstThreshold]
    refine ⟨hexp family, ?_⟩
    intro hmem
    refine ⟨{ type := tpl.type, metric := tpl.metric.getD "", threshold := JSNumber.nan
              validate := tpl.validate }, ?_, rfl, rfl, rfl⟩
    simp only [getDefinitions, List.mem_append, List.mem_flatMap]
    rcases hmem with hm | hm | hm
    · exact Or.inl (Or.inl ⟨tpl, hm, by rw [hexp]; simp⟩)
    · exact Or.inl (Or.inr ⟨tpl, hm, by rw [hexp]; simp⟩)
    · exact Or.inr ⟨tpl, hm, by rw [hexp]; simp⟩

/-- Witness of C8 (amended) on the skill template of `emptyThresholdsConfig`. -/
theorem expandTemplate_malformed_witness :
    (noThresholdSkillTemplate.thresholds = [] ∨
      (metricUnset noThresholdSkillTemplate.metric = true ∧ ["attack"] = [])) ∧
    (expandTemplate emptyThresholdsConfig ["attack"] noThresholdSkillTemplate).map
        Definition.triple = [("Maxed Overall", "overall", JSNumber.nan)] ∧
    ∃ d ∈ getDefinitions emptyThresholdsConfig, d.type = noThresholdSkillTemplate.type ∧
      d.metric = noThresholdSkillTemplate.metric.getD "" ∧ d.threshold = JSNumber.nan :=
  ⟨Or.inl rfl, by decide,
    ((expandTemplate_malformed emptyThresholdsConfig ["attack"] noThresholdSkillTemplate
      (Or.inl rfl)).2 rfl).2 (Or.inl (List.mem_singleton.mpr rfl))⟩

/-- C11: the store invariant "at most one row per `(playerId, type)`" is preserved by
`syncAchievements` and by `reevaluateAchievements`, for every store that satisfies it and
every snapshot history; the duplicate-skipping insert preserves it for any rows whatever,
so also when they contain a stored type or the same type twice. -/
theorem uniqueKeys_preserved (cfg : Config) (db : Database) (now : Int) (playerId : Nat)
    (store : Store) (h : uniqueKeys store) :
    uniqueKeys (syncAchievements cfg db now playerId store) ∧
    uniqueKeys (reevaluateAchievements cfg db now playerId store) ∧
    ∀ rows : List Achievement, uniqueKeys (bulkCreate store rows) :=
  ⟨syncAchievements_uniqueKeys cfg db now playerId h,
    reevaluateAchievements_uniqueKeys cfg db now playerId h,
    fun rows => bulkCreate_uniqueKeys rows h⟩

/-- Witness of C11 on the table `zulrahStore`: inserting the stored type twice more leaves
one row. -/
theorem uniqueKeys_preserved_witness :
    uniqueKeys zulrahStore ∧
    bulkCreate zulrahStore [zulrahUnknown, { zulrahUnknown with createdAt := 5 }] = zulrahStore ∧
    uniqueKeys (syncAchievements zulrahConfig zulrahDatabase 300 7 zulrahStore) ∧
    uniqueKeys (reevaluateAchievements zulrahConfig zulrahDatabase 300 7 zulrahStore) ∧
    ∀ rows : List Achievement, uniqueKeys (bulkCreate zulrahStore rows) :=
  ⟨by decide, by decide,
    uniqueKeys_preserved zulrahConfig zulrahDatabase 300 7 zulrahStore (by decide)⟩

/-- C13: insufficient history is a silent no-op: when the player has fewer than 2 snapshots,
`addPastDates` returns its input achievements unchanged and `syncAchievements` leaves the
store unchanged. -/
theorem thin_history_no_op (cfg : Config) (db : Database) (now : Int) (playerId : Nat)
    (achievements : List Achievement) (store : Store)
    (h : (db.snapshots playerId).length < 2) :
    addPastDates cfg db now playerId achievements = achievements ∧
    syncAchievements cfg db now playerId store = store :=
  ⟨addPastDates_short achievements h, syncAchievements_short h⟩

/-- Witness of C13: player 7 with the single snapshot `zulrahS2`. -/
theorem thin_history_no_op_witness :
    ((historyOf [zulrahS2]).snapshots 7).length < 2 ∧
    addPastDates zulrahConfig (historyOf [zulrahS2]) 400 7 [zulrahUnknown] = [zulrahUnknown] ∧
    syncAchievements zulrahConfig (historyOf [zulrahS2]) 400 7 zulrahStore = zulrahStore :=
  ⟨by decide,
    thin_history_no_op zulrahConfig (historyOf [zulrahS2]) 400 7 [zulrahUnknown] zulrahStore
      (by decide)⟩

/-- C14: for every history and every input list, `addPastDates` returns a list of the same
length and order in which each achievement differs from its input at most in `createdAt`,
and every achievement whose type is newly crossed at no consecutive pair of the history
keeps its input `createdAt` (the unknown sentinel stays the unknown sentinel). -/
theorem addPastDates_frame (cfg : Config) (db : Database) (now : Int) (playerId : Nat)
    (achievements : List Achievement) :
    (addPastDates cfg db now playerId achievements).length = achievements.length ∧
    (∀ (i : Nat) (hi : i < achievements.length), ∃ date : Int,
      (addPastDates cfg db now playerId achievements)[i]? =
        some { achievements[i] with createdAt := date }) ∧
    (∀ (i : Nat) (hi : i < achievements.length),
      (∀ p ∈ consecutivePairs (findAllSnapshots db playerId 1000),
        ∀ a ∈ getNewAchievements cfg now (some p.1) (some p.2),
          a.type ≠ achievements[i].type) →
      (addPastDates cfg db now playerId achievements)[i]? = some achievements[i]) := by
  rw [addPastDates_eq_redate]
  refine ⟨by simp, ?_, ?_⟩
  · intro i hi
    exact ⟨_, by rw [List.getElem?_map, List.getElem?_eq_getElem hi]; rfl⟩
  · intro i hi hnone
    have hlookup : (dateMapOf cfg db now playerId).lookup achievements[i].type = none := by
      rw [dateMapOf_eq_scanPairs]
      exact scanPairs_lookup_none cfg now _ hnone rfl
    rw [List.getElem?_map, List.getElem?_eq_getElem hi]
    simp [hlookup]

/-- Witness of C14: between 500 kills and 0 kills "1k Zulrah kills" is not crossed, and the
unknown-dated achievement comes back as it went in. -/
theorem addPastDates_frame_witness :
    (∀ p ∈ consecutivePairs (findAllSnapshots (historyOf [zulrahS1, zulrahS0]) 7 1000),
      ∀ a ∈ getNewAchievements zulrahConfig 400 (some p.1) (some p.2),
        a.type ≠ zulrahUnknown.type) ∧
    (addPastDates zulrahConfig (historyOf [zulrahS1, zulrahS0]) 400 7 [zulrahUnknown])[0]? =
      some zulrahUnknown :=
  ⟨by decide,
    (addPastDates_frame zulrahConfig (historyOf [zulrahS1, zulrahS0]) 400 7
      [zulrahUnknown]).2.2 0 (by decide) (by decide)⟩

/-- C17: first detection wins in backfill. A date once recorded for a type is not changed by
any later pair of the scan, so the date `addPastDates` returns for a type is the one computed
at the first consecutive pair (in scan order) at which the type is newly crossed, from the
first achievement `a` of that type there: `Math.min(a.createdAt, next.createdAt)`, also
when that date is the epoch-zero sentinel. -/
theorem addPastDates_first_detection (cfg : Config) (db : Database) (now : Int)
    (playerId : Nat) (achievements : List Achievement)
    (before after : List (Snapshot × Snapshot)) (prev next : Snapshot) (a : DatedDefinition)
    (hpairs : consecutivePairs (findAllSnapshots db playerId 1000) =
      before ++ (prev, next) :: after)
    (hbefore : ∀ p ∈ before,
      ∀ b ∈ getNewAchievements cfg now (some p.1) (some p.2), b.type ≠ a.type)
    (hfirst : (getNewAchievements cfg now (some prev) (some next)).find?
      (fun b => b.type == a.type) = some a) :
    (∀ (snapshots : List Snapshot) (dateMap : List (String × Int)) (k : String) (v : Int),
      dateMap.lookup k = some v → (scanPairs cfg now snapshots dateMap).lookup k = some v) ∧
    ∀ (i : Nat) (hi : i < achievements.length), achievements[i].type = a.type →
      (addPastDates cfg db now playerId achievements)[i]? =
        some { achievements[i] with createdAt := min a.createdAt next.createdAt } := by
  refine ⟨fun snapshots dateMap k v h => scanPairs_lookup_some cfg now snapshots h, ?_⟩
  intro i hi htype
  have hlookup : (dateMapOf cfg db now playerId).lookup a.type =
      some (min a.createdAt next.createdAt) := by
    rw [dateMapOf_eq_scanPairs]
    exact scanPairs_first cfg now _ before after prev next hpairs hbefore hfirst rfl
  rw [addPastDates_eq_redate, List.getElem?_map, List.getElem?_eq_getElem hi]
  simp [htype, hlookup]

/-- Witness of C17 on `zulrahTwiceCrossed`: the first pair of the scan (1000 kills at 400
after an untracked value at 300) records the epoch-zero date, and the later crossing
between 200 and 100 does not change it. -/
theorem addPastDates_first_detection_witness :
    (consecutivePairs zulrahTwiceCrossed).map
        (fun p => (getNewAchievements zulrahConfig 500 (some p.1) (some p.2)).map
          (fun b => (b.type, min b.createdAt p.2.createdAt)))
      = [[("1k Zulrah kills", 0)], [], [("1k Zulrah kills", 100)]] ∧
    (addPastDates zulrahConfig (historyOf zulrahTwiceCrossed) 500 7 [zulrahUnknown])[0]? =
      some { zulrahUnknown with createdAt := 0 } :=
  ⟨by decide,
    (addPastDates_first_detection zulrahConfig (historyOf zulrahTwiceCrossed) 500 7
      [zulrahUnknown] []
      [(snapshotOf 300 "other" 0, snapshotOf 200 "zulrahKills" 1000),
        (snapshotOf 200 "zulrahKills" 1000, snapshotOf 100 "zulrahKills" 0)]
      (snapshotOf 400 "zulrahKills" 1000) (snapshotOf 300 "other" 0)
      { toDefinition := hydrate zulrahConfig "1k {boss} kills" "zulrah" 1000, createdAt := 0 }
      rfl (fun _ hp => absurd hp (List.not_mem_nil _)) rfl).2 0 (by decide) rfl⟩

/-- C18: for every integer threshold `t` that is not one of the two reserved milestones
(13034431 and `CAPPED_MAX_TOTAL_XP`): if `t < 1000` or `t = 2277`, `formatThreshold(t)` is
the decimal rendering of `t`; if `1000 <= t <= 10000` and `t` is not 2277,
`formatThreshold(t)` is the decimal rendering of `floor(t / 1000)` followed by "k", where
the floor of the double quotient is the integer quotient. -/
theorem formatThreshold_small (cfg : Config) (t : Nat) (h99 : t ≠ 13034431)
    (hcap : t ≠ cfg.CAPPED_MAX_TOTAL_XP) :
    ((t < 1000 ∨ t = 2277) → formatThreshold cfg t = toString t) ∧
    ((1000 ≤ t ∧ t ≤ 10000 ∧ t ≠ 2277) →
      formatThreshold cfg t = toString (t / 1000) ++ "k" ∧
      mathFloor (fdiv (ofNat t) (ofNat 1000)) = t / 1000) := by
  constructor
  · intro h
    unfold formatThreshold
    rw [if_neg h99, if_neg hcap, if_pos h]
  · rintro ⟨hlo, hhi, h2277⟩
    refine ⟨?_, mathFloor_fdiv_thousand hhi⟩
    unfold formatThreshold
    rw [if_neg h99, if_neg hcap, if_neg (by omega), if_pos hhi]

/-- Witness of C18: 999 renders as "999", 2277 as "2277", 7999 as "7k" and 10000 as "10k". -/
theorem formatThreshold_small_witness :
    formatThreshold zulrahConfig 999 = "999" ∧ formatThreshold zulrahConfig 2277 = "2277" ∧
    formatThreshold zulrahConfig 7999 = "7k" ∧ formatThreshold zulrahConfig 10000 = "10k" :=
  ⟨((formatThreshold_small zulrahConfig 999 (by decide) (by decide)).1
      (Or.inl (by decide))).trans (by decide),
    ((formatThreshold_small zulrahConfig 2277 (by decide) (by decide)).1
      (Or.inr rfl)).trans (by decide),
    ((formatThreshold_small zulrahConfig 7999 (by decide) (by decide)).2
      ⟨by decide, by decide, by decide⟩).1.trans (by decide),
    ((formatThreshold_small zulrahConfig 10000 (by decide) (by decide)).2
      ⟨by decide, by decide, by decide⟩).1.trans (by decide)⟩

/-- C19: for every pair of snapshots, a catalog definition is in
`getPreviousAchievements(current)` iff it is in `getNewAchievements(current, previous)` or in
both `getPreviousAchievements(previous)` and `getPreviousAchievements(current)`; no
definition is in both `getNewAchievements(current, previous)` and
`getPreviousAchievements(previous)`, so the baseline from which `syncAchievements` takes
its missing list and its new list never contain the same definition. -/
theorem satisfied_split (cfg : Config) (now : Int) (current previous : Snapshot) :
    (∀ d ∈ getDefinitions cfg,
      ((∃ a ∈ getPreviousAchievements cfg (some current), a.toDefinition = d) ↔
        ((∃ a ∈ getNewAchievements cfg now (some current) (some previous),
            a.toDefinition = d) ∨
          ((∃ a ∈ getPreviousAchievements cfg (some previous), a.toDefinition = d) ∧
            ∃ a ∈ getPreviousAchievements cfg (some current), a.toDefinition = d)))) ∧
    (∀ a ∈ getNewAchievements cfg now (some current) (some previous),
      ∀ b ∈ getPreviousAchievements cfg (some previous), a.toDefinition ≠ b.toDefinition) ∧
    (∀ (store : Store) (playerId : Nat),
      ∀ a ∈ getNewAchievements cfg now (some current) (some previous),
      ∀ b ∈ (getPreviousAchievements cfg (some previous)).filter (fun b =>
          ((findAllAchievements store playerId).find? fun e =>
            e.type == (withPlayer playerId b).type).isNone),
        a.toDefinition ≠ b.toDefinition) := by
  have hprev : ∀ (s : Snapshot) (d : Definition), d ∈ getDefinitions cfg →
      ((∃ a ∈ getPreviousAchievements cfg (some s), a.toDefinition = d) ↔
        d.validate s = true) := by
    intro s d hd
    simp only [getPreviousAchievements, List.mem_map, List.mem_filter]
    constructor
    · rintro ⟨_, ⟨e, ⟨_, hv⟩, rfl⟩, rfl⟩
      exact hv
    · intro hv
      exact ⟨_, ⟨d, ⟨hd, hv⟩, rfl⟩, rfl⟩
  have hdisj : ∀ a ∈ getNewAchievements cfg now (some current) (some previous),
      ∀ b ∈ getPreviousAchievements cfg (some previous), a.toDefinition ≠ b.toDefinition := by
    intro a ha b hb hab
    obtain ⟨d, _, hv, rfl⟩ := mem_getNewAchievements.mp ha
    simp only [getPreviousAchievements, List.mem_map, List.mem_filter] at hb
    obtain ⟨e, ⟨_, he⟩, rfl⟩ := hb
    simp only at hab
    rw [← hab, hv.1] at he
    cases he
  refine ⟨?_, hdisj, ?_⟩
  · intro d hd
    rw [hprev current d hd, hprev previous d hd, returned_iff hd]
    cases hp : d.validate previous <;> cases hc : d.validate current <;> simp
  · intro store playerId a ha b hb
    exact hdisj a ha b (List.mem_of_mem_filter hb)

/-- Witness of C19 on the zulrah scenario: "1k Zulrah kills" holds on the current snapshot
because it is newly crossed, and it is not in the baseline of the previous snapshot. -/
theorem satisfied_split_witness :
    ((∃ a ∈ getPreviousAchievements zulrahConfig (some zulrah1018),
        a.toDefinition = hydrate zulrahConfig "1k {boss} kills" "zulrah" 1000) ↔
      ((∃ a ∈ getNewAchievements zulrahConfig 300 (some zulrah1018) (some zulrah965),
          a.toDefinition = hydrate zulrahConfig "1k {boss} kills" "zulrah" 1000) ∨
        ((∃ a ∈ getPreviousAchievements zulrahConfig (some zulrah965),
            a.toDefinition = hydrate zulrahConfig "1k {boss} kills" "zulrah" 1000) ∧
          ∃ a ∈ getPreviousAchievements zulrahConfig (some zulrah1018),
            a.toDefinition = hydrate zulrahConfig "1k {boss} kills" "zulrah" 1000))) ∧
    (getPreviousAchievements zulrahConfig (some zulrah965)).length = 0 ∧
    (getNewAchievements zulrahConfig 300 (some zulrah1018) (some zulrah965)).length = 1 :=
  ⟨(satisfied_split zulrahConfig 300 zulrah1018 zulrah965).1 _ (List.mem_singleton.mpr rfl),
    by decide, by decide⟩

/-- C16: `getDefinitions` equals the reference expansion of the templates, for every
configuration whose templates with a metric have at least one threshold (and no empty
metric name): a template without metric yields, for every metric of its family (every skill
except overall, every activity, every boss) and every threshold `t`, one definition with
that metric, threshold `t × difficultyFactor(metric)` and the placeholder-substituted type,
so `|family| × |thresholds|` definitions; a template with a metric and several thresholds
yields one definition per threshold, each scaled and all sharing the metric; a template with
a metric and a single threshold yields exactly one definition with threshold
`t × difficultyFactor(metric)`. -/
theorem getDefinitions_eq_reference (cfg : Config)
    (hmetric : ∀ tpl ∈ cfg.SKILL_ACHIEVEMENT_TEMPLATES ++ cfg.ACTIVITY_ACHIEVEMENT_TEMPLATES ++
      cfg.BOSS_ACHIEVEMENT_TEMPLATES, tpl.metric ≠ some "")
    (hthresholds : ∀ tpl ∈ cfg.SKILL_ACHIEVEMENT_TEMPLATES ++
      cfg.ACTIVITY_ACHIEVEMENT_TEMPLATES ++ cfg.BOSS_ACHIEVEMENT_TEMPLATES,
      tpl.metric ≠ none → tpl.thresholds ≠ []) :
    getDefinitions cfg = referenceDefinitions cfg ∧
    (∀ (family : List String) (tpl : Template), tpl.metric = none →
      (expandTemplate cfg family tpl).length = family.length * tpl.thresholds.length) ∧
    (∀ (family : List String) (tpl : Template) (m : String), tpl.metric = some m → m ≠ "" →
      1 < tpl.thresholds.length →
      (expandTemplate cfg family tpl).map (fun d => (d.metric, d.threshold)) =
        tpl.thresholds.map (fun t => (m, JSNumber.val (t * cfg.getDifficultyFactor m)))) ∧
    (∀ (family : List String) (tpl : Template) (m : String) (t : Nat), tpl.metric = some m →
      m ≠ "" → tpl.thresholds = [t] →
      (expandTemplate cfg family tpl).map Definition.triple =
        [(tpl.type, m, JSNumber.val (t * cfg.getDifficultyFactor m))]) := by
  refine ⟨?_, ?_, ?_, ?_⟩
  · unfold getDefinitions referenceDefinitions
    rw [flatMap_expandTemplate_eq_reference cfg _ cfg.SKILL_ACHIEVEMENT_TEMPLATES
        (fun tpl h => hmetric tpl (by simp [h])) (fun tpl h => hthresholds tpl (by simp [h])),
      flatMap_expandTemplate_eq_reference cfg _ cfg.ACTIVITY_ACHIEVEMENT_TEMPLATES
        (fun tpl h => hmetric tpl (by simp [h])) (fun tpl h => hthresholds tpl (by simp [h])),
      flatMap_expandTemplate_eq_reference cfg _ cfg.BOSS_ACHIEVEMENT_TEMPLATES
        (fun tpl h => hmetric tpl (by simp [h])) (fun tpl h => hthresholds tpl (by simp [h])),
      trackableSkills_eq]
  · intro family tpl h
    rw [expandTemplate_none cfg family tpl h]
    unfold referenceExpansion
    simp only [h, List.length_map]
    exact List.length_product _ _
  · intro family tpl m h hm hlen
    rw [expandTemplate_some cfg family tpl h hm (by intro h0; rw [h0] at hlen; simp at hlen)]
    unfold referenceExpansion
    simp only [h]
    match hths : tpl.thresholds with
    | [] => rw [hths] at hlen; simp at hlen
    | [t] => rw [hths] at hlen; simp at hlen
    | t :: t' :: rest =>
      simp only [List.map_map]
      rfl
  · intro family tpl m t h hm hth
    rw [expandTemplate_some cfg family tpl h hm (by rw [hth]; simp)]
    unfold referenceExpansion
    simp [h, hth, Definition.triple]

/-- Witness of C16: the catalog of `sampleConfig` is its reference expansion, thirteen
definitions from four templates. -/
theorem getDefinitions_eq_reference_witness :
    (referenceDefinitions sampleConfig).map Definition.triple =
      [("99 attack", "attack", JSNumber.val 13034431),
       ("50m attack", "attack", JSNumber.val 50000000),
       ("99 cooking", "cooking", JSNumber.val 13034431),
       ("50m cooking", "cooking", JSNumber.val 50000000),
       ("Maxed Overall", "overall", JSNumber.val 299791913),
       ("500m Overall Exp.", "overall", JSNumber.val 500000000),
       ("1b Overall Exp.", "overall", JSNumber.val 1000000000),
       ("500 zulrah kills", "zulrah", JSNumber.val 500),
       ("1k zulrah kills", "zulrah", JSNumber.val 1000),
       ("5k zulrah kills", "zulrah", JSNumber.val 5000),
       ("500 cerberus kills", "cerberus", JSNumber.val 500),
       ("1k cerberus kills", "cerberus", JSNumber.val 1000),
       ("5k cerberus kills", "cerberus", JSNumber.val 5000)] ∧
    getDefinitions sampleConfig = referenceDefinitions sampleConfig :=
  ⟨by decide, (getDefinitions_eq_reference sampleConfig (by decide) (by decide)).1⟩

/-- C15: on a store with unique keys the only effect of `reevaluateAchievements` is to
replace the `createdAt` of the player's unknown-dated rows that backfill resolved to a date
after the epoch: the set of `(playerId, type)` pairs stored is the same before and after,
every row with a known date and every row of another player is still there, every row of
the result is a row of the store or an unknown-dated row of the player with a new date, the
re-dated rows are stored, and if no achievement resolves the store is unchanged. -/
theorem reevaluateAchievements_frame (cfg : Config) (db : Database) (now : Int)
    (playerId : Nat) (store : Store) (h : uniqueKeys store) :
    (∀ k, k ∈ (reevaluateAchievements cfg db now playerId store).map rowKey ↔
      k ∈ store.map rowKey) ∧
    (∀ r ∈ store, (r.playerId ≠ playerId ∨ r.createdAt ≠ 0) →
      r ∈ reevaluateAchievements cfg db now playerId store) ∧
    (∀ r ∈ reevaluateAchievements cfg db now playerId store,
      r ∈ store ∨ ∃ old ∈ store, old.playerId = playerId ∧ old.createdAt = 0 ∧
        0 < r.createdAt ∧ r = { old with createdAt := r.createdAt }) ∧
    ((∀ d ∈ addPastDates cfg db now playerId (unknownRows playerId store), d.createdAt = 0) →
      reevaluateAchievements cfg db now playerId store = store) ∧
    (∀ d ∈ addPastDates cfg db now playerId (unknownRows playerId store), 0 < d.createdAt →
      d ∈ reevaluateAchievements cfg db now playerId store) := by
  have hdated : ∀ d ∈ addPastDates cfg db now playerId (unknownRows playerId store),
      0 < d.createdAt →
      ∃ e ∈ resolvedRows cfg db now playerId store, d = redate cfg db now playerId e := by
    intro d hd hpos
    rw [addPastDates_eq_redate] at hd
    obtain ⟨e, he, rfl⟩ := List.mem_map.mp hd
    exact ⟨e, mem_resolvedRows.mpr ⟨mem_unknownRows.mp he, hpos⟩, rfl⟩
  rw [reevaluateAchievements_eq]
  by_cases hempty : (resolvedRows cfg db now playerId store).isEmpty = true
  · rw [if_pos hempty]
    have hnil := List.isEmpty_iff.mp hempty
    refine ⟨fun k => Iff.rfl, fun r hr _ => hr, fun r hr => Or.inl hr, fun _ => rfl, ?_⟩
    intro d hd hpos
    obtain ⟨e, he, _⟩ := hdated d hd hpos
    rw [hnil] at he
    cases he
  · rw [if_neg hempty]
    refine ⟨?_, ?_, ?_, ?_, ?_⟩
    · intro k
      constructor
      · intro hk
        obtain ⟨r, hr, rfl⟩ := List.mem_map.mp hk
        rcases mem_bulkCreate hr with hr | hr
        · exact List.mem_map_of_mem _ (mem_destroy.mp hr).1
        · obtain ⟨e, he, rfl⟩ := List.mem_map.mp hr
          rw [redate_key]
          exact List.mem_map_of_mem _ (mem_resolvedRows.mp he).1.1
      · intro hk
        obtain ⟨r, hr, rfl⟩ := List.mem_map.mp hk
        by_cases hres : r ∈ resolvedRows cfg db now playerId store
        · rw [← redate_key cfg db now playerId r]
          exact List.mem_map_of_mem _ (redated_mem_bulkCreate h hres)
        · exact List.mem_map_of_mem _
            (mem_bulkCreate_of_mem _ ((mem_destroy_resolved h).mpr ⟨hr, hres⟩))
    · intro r hr hknown
      apply mem_bulkCreate_of_mem
      rw [mem_destroy_resolved h]
      refine ⟨hr, fun hres => ?_⟩
      have := (mem_resolvedRows.mp hres).1
      rcases hknown with hp | hc
      · exact hp this.2.1
      · exact hc this.2.2
    · intro r hr
      rcases mem_bulkCreate hr with hr | hr
      · exact Or.inl (mem_destroy.mp hr).1
      · obtain ⟨e, he, rfl⟩ := List.mem_map.mp hr
        have he' := mem_resolvedRows.mp he
        exact Or.inr ⟨e, he'.1.1, he'.1.2.1, he'.1.2.2, he'.2, rfl⟩
    · intro hall
      exfalso
      apply hempty
      rw [List.isEmpty_iff, List.eq_nil_iff_forall_not_mem]
      intro e he
      have he' := mem_resolvedRows.mp he
      have hmem : redate cfg db now playerId e ∈
          addPastDates cfg db now playerId (unknownRows playerId store) := by
        rw [addPastDates_eq_redate]
        exact List.mem_map_of_mem _ (mem_unknownRows.mpr he'.1)
      have := hall _ hmem
      omega
    · intro d hd hpos
      obtain ⟨e, he, rfl⟩ := hdated d hd hpos
      exact redated_mem_bulkCreate h he

/-- Witness of C15: in `zulrahStore` the unknown-dated row of player 7 is re-dated to 200 by
the history `[zulrahS2, zulrahS1, zulrahS0]`, and nothing else changes. -/
theorem reevaluateAchievements_frame_witness :
    uniqueKeys zulrahStore ∧
    reevaluateAchievements zulrahConfig (historyOf [zulrahS2, zulrahS1, zulrahS0]) 500 7
        zulrahStore = [{ zulrahUnknown with createdAt := 200 }] ∧
    (∀ k, k ∈ (reevaluateAchievements zulrahConfig
        (historyOf [zulrahS2, zulrahS1, zulrahS0]) 500 7 zulrahStore).map rowKey ↔
      k ∈ zulrahStore.map rowKey) :=
  ⟨by decide, by decide,
    (reevaluateAchievements_frame zulrahConfig (historyOf [zulrahS2, zulrahS1, zulrahS0]) 500 7
      zulrahStore (by decide)).1⟩

/-- C12, evaluated where the code breaks it: player 7 holds the unknown-dated row
"1k Zulrah kills", the history `[zulrahS2, zulrahS1, zulrahS0]` resolves its date, and a
storage call of the transaction fails. The committed table keeps the old row, but the
transaction is not rolled back: it stays open, after a failing `bulkCreate` with the row
deleted in its working copy, and the call rejects. -/
theorem reevaluate_failure_leaves_transaction_open :
    reevaluateAchievementsWithFault StorageFault.bulkCreateFails zulrahConfig
        (historyOf [zulrahS2, zulrahS1, zulrahS0]) 500 7 zulrahStore
      = { committed := zulrahStore, openTransaction := some [], raised := true } ∧
    reevaluateAchievementsWithFault StorageFault.destroyFails zulrahConfig
        (historyOf [zulrahS2, zulrahS1, zulrahS0]) 500 7 zulrahStore
      = { committed := zulrahStore, openTransaction := some zulrahStore, raised := true } ∧
    reevaluateAchievementsWithFault StorageFault.noFault zulrahConfig
        (historyOf [zulrahS2, zulrahS1, zulrahS0]) 500 7 zulrahStore
      = { committed := [{ zulrahUnknown with createdAt := 200 }], openTransaction := none
          raised := false } := by
  decide

end Achievements
